import Mathlib

/-!
# ntg collision algebra: a shallow embedding

The definitions below transcribe `Assignment_2/ntg/collision.inl` and
`Assignment_2/ntg/ray.inl`.  Scalars (`vct`) are taken in an arbitrary linearly
ordered field `K` (exact arithmetic); `vec<vcl, vct>` is `Fin n → K`.  Output
reference parameters (`t_out`, `tmin_out`, ...) become an input value (what the
variable held before the call) and a component of the result (what it holds
after the call).

The sphere-sphere test, the box-sphere test and `distance2` are transcribed a
second time for `vct = float` (names starting with `f32_`), every operation
rounded to IEEE 754 binary32, to show where rounding departs from the exact
reading.
-/

namespace ntg

/-- The type `glm::vec<vcl, vct>`: `n` scalar components. -/
abbrev Vec (n : Nat) (K : Type) := Fin n → K

/-- The type `ntg::ray<vcl, vct>`. -/
structure Ray (n : Nat) (K : Type) where
  origin : Vec n K
  direction : Vec n K

/-- The type `ntg::bounds<vcl, vct>`. -/
structure Bounds (n : Nat) (K : Type) where
  min : Vec n K
  max : Vec n K

/-- The type `ntg::hyperplane<vcl, vct>`. -/
structure Hyperplane (n : Nat) (K : Type) where
  origin : Vec n K
  normal : Vec n K

/-- The type `ntg::radial<vcl, vct>`. -/
structure Radial (n : Nat) (K : Type) where
  center : Vec n K
  radius : K

/-- The type `ntg::simplex<vcl, pc, vct>`: `pc` points, member `points`. -/
abbrev Simplex (n pc : Nat) (K : Type) := Fin pc → Vec n K

/-- A scalar variable that may hold `±std::numeric_limits<vct>::infinity()`. -/
inductive Ext (K : Type) where
  | negInf : Ext K
  | fin (x : K) : Ext K
  | posInf : Ext K
  deriving DecidableEq

section Scalars

variable {K : Type} [LinearOrderedField K]

/-- The literal `1e-6`. -/
def eps : K := 1 / 1000000

/-- The literal `0.001f`. -/
def eps_plane : K := 1 / 1000

/-- The function `glm::dot`. -/
def dot {n : Nat} (a b : Vec n K) : K := ∑ i, a i * b i

/-- The function `glm::length2`. -/
def length2 {n : Nat} (a : Vec n K) : K := dot a a

/-- The function `glm::distance2(p0, p1)`, which is `length2(p1 - p0)`. -/
def glm_distance2 {n : Nat} (p0 p1 : Vec n K) : K := length2 (p1 - p0)

/-- Comparison `x < y` on scalars that may be infinite. -/
def Ext.lt : Ext K → Ext K → Bool
  | .negInf, .negInf => false
  | .negInf, _ => true
  | .fin _, .negInf => false
  | .fin x, .fin y => decide (x < y)
  | .fin _, .posInf => true
  | .posInf, _ => false

/-- Comparison `x >= y` on scalars that may be infinite. -/
def Ext.ge : Ext K → Ext K → Bool
  | _, .negInf => true
  | .posInf, _ => true
  | .fin x, .fin y => decide (y ≤ x)
  | _, _ => false

/-- The function `glm::max(x, y)`, which is `(x < y) ? y : x`. -/
def Ext.gmax (x y : Ext K) : Ext K := if Ext.lt x y then y else x

/-- The function `glm::min(x, y)`, which is `(y < x) ? y : x`. -/
def Ext.gmin (x y : Ext K) : Ext K := if Ext.lt y x then y else x

/-- The function `glm::max` on finite scalars. -/
def gmax (x y : K) : K := if x < y then y else x

/-- The function `glm::min` on finite scalars. -/
def gmin (x y : K) : K := if y < x then y else x

end Scalars

section RayBounds

variable {K : Type} [LinearOrderedField K]

/-- One iteration of the loop of `collide(ray, bounds, tmin_out, tmax_out)`
(collision.inl:159-166).  The guard reads `r.direction[i]`; the body reads
index `0` of `b.min`, `b.max`, `r.origin` and `r.direction`. -/
def collide_ray_bounds_step {n : Nat} (r : Ray n K) (b : Bounds n K)
    (st : Ext K × Ext K) (i : Fin n) : Ext K × Ext K :=
  if r.direction i ≠ 0 then
    let z : Fin n := ⟨0, i.pos⟩
    let t1 : K := (b.min z - r.origin z) / r.direction z
    let t2 : K := (b.max z - r.origin z) / r.direction z
    (Ext.gmax st.1 (Ext.fin (gmin t1 t2)), Ext.gmin st.2 (Ext.fin (gmax t1 t2)))
  else st

/-- The function `collide(ray, bounds, tmin_out, tmax_out)` (collision.inl:152-169).
Both outputs are assigned before the loop, so the result does not depend on what
they held before.  Division is the field's; the theorems about this function
assume `r.direction[0] != 0` where a quotient is used. -/
def collide_ray_bounds {n : Nat} (r : Ray n K) (b : Bounds n K) : Bool × Ext K × Ext K :=
  let st := (List.finRange n).foldl (collide_ray_bounds_step r b) (Ext.negInf, Ext.posInf)
  (Ext.ge st.2 st.1, st.1, st.2)

/-- One iteration of the slab test as the specification words it: axis `i` uses
`b.min[i]`, `b.max[i]`, `r.origin[i]` and `r.direction[i]`. -/
def slab_spec_step {n : Nat} (r : Ray n K) (b : Bounds n K)
    (st : Ext K × Ext K) (i : Fin n) : Ext K × Ext K :=
  if r.direction i ≠ 0 then
    let t1 : K := (b.min i - r.origin i) / r.direction i
    let t2 : K := (b.max i - r.origin i) / r.direction i
    (Ext.gmax st.1 (Ext.fin (gmin t1 t2)), Ext.gmin st.2 (Ext.fin (gmax t1 t2)))
  else st

/-- The per-axis slab test of the specification: narrow `[-inf, +inf]` by each
axis's own entry/exit interval; true iff `tmax >= tmin`. -/
def slab_spec {n : Nat} (r : Ray n K) (b : Bounds n K) : Bool × Ext K × Ext K :=
  let st := (List.finRange n).foldl (slab_spec_step r b) (Ext.negInf, Ext.posInf)
  (Ext.ge st.2 st.1, st.1, st.2)

end RayBounds

section RayTransform

variable {K : Type} [LinearOrderedField K]

/-- The type `glm::mat<vcl, vcl, vct>`: `m j` is column `j`. -/
abbrev Mat (n : Nat) (K : Type) := Fin n → Vec n K

/-- The constructor `ray(origin, direction)` (ray.inl:6-9): the first argument
initialises `origin`, the second `direction`. -/
def Ray.ctor {n : Nat} (origin direction : Vec n K) : Ray n K :=
  { origin := origin, direction := direction }

/-- The operator `ray::operator==` (ray.inl:11-15). -/
def Ray.beq {n : Nat} (r other : Ray n K) : Bool :=
  decide (r.direction = other.direction) && decide (r.origin = other.origin)

/-- The glm product `v * m` of a vector by a matrix: component `j` is the dot
product of column `j` of `m` with `v`. -/
def vec_mul_mat {n : Nat} (v : Vec n K) (m : Mat n K) : Vec n K :=
  fun j => ∑ i, m j i * v i

/-- The constructor `glm::vec<vcl + 1, vct>(v, w)`: `v` followed by `w`. -/
def vec_extend {n : Nat} (v : Vec n K) (w : K) : Vec (n + 1) K :=
  fun i => if h : i.val < n then v ⟨i.val, h⟩ else w

/-- The glm conversion of a `vec<vcl + 1, vct>` to a `vec<vcl, vct>`: the first
`vcl` components. -/
def vec_truncate {n : Nat} (v : Vec (n + 1) K) : Vec n K :=
  fun i => v i.castSucc

/-- The identity matrix `glm::mat<vcl, vcl, vct>(1)`. -/
def mat_identity (n : Nat) : Mat n K :=
  fun j i => if i = j then 1 else 0

/-- The operator `ray::operator*(mat<vcl, vcl>)` (ray.inl:23-27): the braced
list `{ direction * transform, origin * transform }` is passed to the
constructor `ray(origin, direction)` in that order. -/
def Ray.mul_linear {n : Nat} (r : Ray n K) (transform : Mat n K) : Ray n K :=
  Ray.ctor (vec_mul_mat r.direction transform) (vec_mul_mat r.origin transform)

/-- The operator `ray::operator*(mat<vcl + 1, vcl + 1>)` (ray.inl:29-36). -/
def Ray.mul_affine {n : Nat} (r : Ray n K) (transform : Mat (n + 1) K) : Ray n K :=
  Ray.ctor (vec_truncate (vec_mul_mat (vec_extend r.direction 0) transform))
    (vec_truncate (vec_mul_mat (vec_extend r.origin 1) transform))

/-- The expression `r.origin + t * r.direction`. -/
def point_at {n : Nat} (r : Ray n K) (t : K) : Vec n K :=
  fun i => r.origin i + t * r.direction i

end RayTransform

section RayHyperplane

variable {K : Type} [LinearOrderedField K]

/-- The function `collide(ray, hyperplane, t_out)` (collision.inl:135-144).  The
result is the verdict and the value of `t_out` after the call. -/
def collide_ray_hyperplane {n : Nat} (r : Ray n K) (h : Hyperplane n K) (t_out : K) :
    Bool × K :=
  let denom : K := dot r.direction h.normal
  if denom > -eps then (false, t_out)
  else
    let diff : Vec n K := h.origin - r.origin
    let t : K := dot diff h.normal / denom
    (decide (t ≥ 0), t)

/-- The function `collide(hyperplane, ray, t_out)` (collision.inl:146-150).  Its
body is the call `collide(h, r, t_out)` with the arguments in the order of its
own parameters, which resolves to this same overload.  Each nested call consumes
one unit of `fuel`; `none` means the call has not returned within the fuel. -/
def collide_hyperplane_ray {n : Nat} :
    Nat → Hyperplane n K → Ray n K → K → Option (Bool × K)
  | 0, _, _, _ => none
  | fuel + 1, h, r, t_out => collide_hyperplane_ray fuel h r t_out

end RayHyperplane

section RaySimplex

variable {K : Type} [LinearOrderedField K]

/-- The function `collide(ray, simplex<vcl, vcl>, t_out)` (collision.inl:241-254).
The constructor `hyperplane(simplex)` and the member `simplex::toBarycentric`
are not part of the translated files and are parameters. -/
def collide_ray_simplex {n : Nat} (mk_hyperplane : Simplex n n K → Hyperplane n K)
    (toBarycentric : Simplex n n K → Vec n K → Vec n K)
    (fuel : Nat) (r : Ray n K) (s : Simplex n n K) (t_out : K) : Option (Bool × K) :=
  let h : Hyperplane n K := mk_hyperplane s
  match collide_hyperplane_ray fuel h r t_out with
  | none => none
  | some (true, t) =>
    let p : Vec n K := point_at r t
    if (List.finRange n).any
        (fun i => decide (toBarycentric s p i > 1 ∨ toBarycentric s p i < 0)) then
      some (false, t)
    else some (true, t)
  | some (false, t) => some (false, t)

/-- The function `collide(simplex<vcl, vcl>, ray, t_out)` (collision.inl:256-260). -/
def collide_simplex_ray {n : Nat} (mk_hyperplane : Simplex n n K → Hyperplane n K)
    (toBarycentric : Simplex n n K → Vec n K → Vec n K)
    (fuel : Nat) (s : Simplex n n K) (r : Ray n K) (t_out : K) : Option (Bool × K) :=
  collide_ray_simplex mk_hyperplane toBarycentric fuel r s t_out

/-- The inner loop of `collide(ray, simplex<vcl, vcl + 1>, ..)`
(collision.inl:271-277): `s2` starts as the default-constructed simplex
`s2_init`, `k` starts at `0`, and for `j` from `0` to `vcl - 1`, skipping
`j == i`, `s2.points[k++] = s.points[j]`. -/
def build_face {n : Nat} (s2_init : Simplex n n K) (s : Simplex n (n + 1) K) (i : Fin n) :
    Simplex n n K :=
  ((List.finRange n).foldl
    (fun (st : Simplex n n K × Nat) (j : Fin n) =>
      if i = j then st
      else
        (if h : st.2 < n then Function.update st.1 ⟨st.2, h⟩ (s j.castSucc) else st.1,
          st.2 + 1))
    (s2_init, 0)).1

/-- One iteration of the outer loop of `collide(ray, simplex<vcl, vcl + 1>, ..)`
(collision.inl:269-285) on the state `(tmin_out, tmax_out, collsion)`; `none`
when a nested call has not returned. -/
def collide_ray_simplex_full_step {n : Nat}
    (mk_hyperplane : Simplex n n K → Hyperplane n K)
    (toBarycentric : Simplex n n K → Vec n K → Vec n K)
    (s2_init : Simplex n n K) (t_init : K)
    (fuel : Nat) (r : Ray n K) (s : Simplex n (n + 1) K)
    (st : Option (K × K × Bool)) (i : Fin n) : Option (K × K × Bool) :=
  match st with
  | none => none
  | some (tmin_out, tmax_out, collsion) =>
    match collide_simplex_ray mk_hyperplane toBarycentric fuel (build_face s2_init s i) r
        t_init with
    | none => none
    | some (true, t) => some (gmin tmin_out t, gmin tmax_out t, true)
    | some (false, _) => some (tmin_out, tmax_out, collsion)

/-- The function `collide(ray, simplex<vcl, vcl + 1>, tmin_out, tmax_out)`
(collision.inl:262-287).  `fmax` and `fmin` stand for
`std::numeric_limits<vct>::max()` and `::min()`, `s2_init` for the
default-constructed `simplex<vcl, vcl>` and `t_init` for the uninitialised local
`t`.  The result is the verdict with `tmin_out` and `tmax_out` after the call. -/
def collide_ray_simplex_full {n : Nat}
    (mk_hyperplane : Simplex n n K → Hyperplane n K)
    (toBarycentric : Simplex n n K → Vec n K → Vec n K)
    (fmax fmin : K) (s2_init : Simplex n n K) (t_init : K)
    (fuel : Nat) (r : Ray n K) (s : Simplex n (n + 1) K) : Option (Bool × K × K) :=
  match (List.finRange n).foldl
      (collide_ray_simplex_full_step mk_hyperplane toBarycentric s2_init t_init fuel r s)
      (some (fmax, fmin, false)) with
  | none => none
  | some (tmin_out, tmax_out, collsion) => some (collsion, tmin_out, tmax_out)

end RaySimplex

section RayRadial

variable {K : Type} [LinearOrderedField K]

/-- The discriminant `b * b - 4 * a * c` computed by `collide(ray, radial, ..)`
(collision.inl:201-205). -/
def ray_radial_discriminant {n : Nat} (ry : Ray n K) (rd : Radial n K) : K :=
  let oc : Vec n K := ry.origin - rd.center
  let a : K := length2 ry.direction
  let b : K := 2 * dot oc ry.direction
  let c : K := length2 oc - rd.radius * rd.radius
  b * b - 4 * a * c

/-- The function `collide(ray, radial, tmin_out, tmax_out)` (collision.inl:198-212).
`sqrt` stands for `glm::sqrt`.  The result is the verdict with `tmin_out` and
`tmax_out` after the call. -/
def collide_ray_radial {n : Nat} (sqrt : K → K) (ry : Ray n K) (rd : Radial n K)
    (tmin_out tmax_out : K) : Bool × K × K :=
  let oc : Vec n K := ry.origin - rd.center
  let a : K := length2 ry.direction
  let b : K := 2 * dot oc ry.direction
  let c : K := length2 oc - rd.radius * rd.radius
  let discriminant : K := b * b - 4 * a * c
  if discriminant < 0 then (false, tmin_out, tmax_out)
  else
    let sq : K := sqrt discriminant
    let tmin : K := (-b - sq) / (2 * a)
    let tmax : K := (-b + sq) / (2 * a)
    (decide (tmin > 0) && decide (tmax > 0), tmin, tmax)

/-- The function `collide(ray, radial, s_out)` (collision.inl:220-233);
`tmin_init` and `tmax_init` stand for the uninitialised locals. -/
def collide_ray_radial_segment {n : Nat} (sqrt : K → K) (tmin_init tmax_init : K)
    (ry : Ray n K) (rd : Radial n K) (s_out : Simplex n 2 K) : Bool × Simplex n 2 K :=
  match collide_ray_radial sqrt ry rd tmin_init tmax_init with
  | (true, tmin, tmax) => (true, ![point_at ry tmin, point_at ry tmax])
  | (false, _, _) => (false, s_out)

/-- The function `collide(ray, bounds, s_out)` (collision.inl:177-190).  When the
slab test succeeds with an infinite parameter the products `tmin * r.direction`
are outside exact arithmetic and the result is `none`. -/
def collide_ray_bounds_segment {n : Nat} (r : Ray n K) (b : Bounds n K)
    (s_out : Simplex n 2 K) : Option (Bool × Simplex n 2 K) :=
  match collide_ray_bounds r b with
  | (true, Ext.fin tmin, Ext.fin tmax) => some (true, ![point_at r tmin, point_at r tmax])
  | (true, _, _) => none
  | (false, _, _) => some (false, s_out)

/-- The function `collide(ray, simplex<vcl, vcl + 1>, s_out)` (collision.inl:295-308). -/
def collide_ray_simplex_full_segment {n : Nat}
    (mk_hyperplane : Simplex n n K → Hyperplane n K)
    (toBarycentric : Simplex n n K → Vec n K → Vec n K)
    (fmax fmin : K) (s2_init : Simplex n n K) (t_init : K)
    (fuel : Nat) (r : Ray n K) (s : Simplex n (n + 1) K) (s_out : Simplex n 2 K) :
    Option (Bool × Simplex n 2 K) :=
  match collide_ray_simplex_full mk_hyperplane toBarycentric fmax fmin s2_init t_init fuel
      r s with
  | none => none
  | some (true, tmin, tmax) => some (true, ![point_at r tmin, point_at r tmax])
  | some (false, _, _) => some (false, s_out)

/-- The ray-sphere quadratic `a t^2 + b t + c` with `a = |direction|^2`,
`b = 2 dot(origin - center, direction)`, `c = |origin - center|^2 - radius^2`. -/
def sphere_quadratic {n : Nat} (ry : Ray n K) (rd : Radial n K) (t : K) : K :=
  length2 ry.direction * t ^ 2 + 2 * dot (ry.origin - rd.center) ry.direction * t
    + (length2 (ry.origin - rd.center) - rd.radius ^ 2)

/-- A square root on the rationals, exact on squares of rationals; it plays
`glm::sqrt` where the code is evaluated on rational inputs. -/
def qsqrt (q : ℚ) : ℚ := (Nat.sqrt q.num.toNat : ℚ) / (Nat.sqrt q.den : ℚ)

end RayRadial

section PointTests

variable {K : Type} [LinearOrderedField K]

/-- The loop of `collide(vec, simplex)` (collision.inl:99-107) on the running
value of `final_coordinate`; `none` once the loop has returned false. -/
def collide_point_simplex_step {m : Nat} (barycentic : Vec m K) (st : Option K)
    (i : Fin m) : Option K :=
  match st with
  | none => none
  | some final_coordinate =>
    if 1 - barycentic i < -eps then none
    else if barycentic i < -eps then none
    else some (final_coordinate - barycentic i)

/-- The function `collide(vec, simplex<vcl, pc>)` with `pc = m + 1`
(collision.inl:95-115).  The members `simplex::toBarycentric_reduced` and
`simplex::toWorld` are not part of the translated files and are parameters. -/
def collide_point_simplex {n m : Nat}
    (toBarycentric_reduced : Simplex n (m + 1) K → Vec n K → Vec m K)
    (toWorld : Simplex n (m + 1) K → Vec m K → Vec n K)
    (p : Vec n K) (s : Simplex n (m + 1) K) : Bool :=
  let barycentic : Vec m K := toBarycentric_reduced s p
  match (List.finRange m).foldl (collide_point_simplex_step barycentic) (some 1) with
  | none => false
  | some final_coordinate =>
    if 1 - final_coordinate < -eps then false
    else if final_coordinate < -eps then false
    else decide (glm_distance2 (toWorld s barycentic) p < eps)

/-- The function `collide(vec, hyperplane)` (collision.inl:123-127). -/
def collide_point_hyperplane {n : Nat} (p : Vec n K) (h : Hyperplane n K) : Bool :=
  decide (|dot (p - h.origin) h.normal| < eps_plane)

/-- Modelled from the spec: `simplex::toWorld`, absent from the translated files.
The reduced coordinates `c` weigh the first `m` points and the implied final
coordinate `1 - Σ c` weighs the last one, so that the point is `Σ coord[i] *
points[i]` with coordinates summing to one. -/
def simplex_toWorld {n m : Nat} (s : Simplex n (m + 1) K) (c : Vec m K) : Vec n K :=
  fun x => (∑ i : Fin m, c i * s i.castSucc x) + (1 - ∑ i : Fin m, c i) * s (Fin.last m) x

/-- Modelled from the spec: `simplex::toBarycentric_reduced` for a triangle in the
plane, absent from the translated files.  The coordinates `(c0, c1)` solve
`p = c0 * points[0] + c1 * points[1] + (1 - c0 - c1) * points[2]` (Cramer rule on
`p - points[2]`). -/
def triangle_toBarycentric_reduced (s : Simplex 2 3 K) (p : Vec 2 K) : Vec 2 K :=
  let e0 : Vec 2 K := s 0 - s 2
  let e1 : Vec 2 K := s 1 - s 2
  let q : Vec 2 K := p - s 2
  let det : K := e0 0 * e1 1 - e1 0 * e0 1
  ![(q 0 * e1 1 - e1 0 * q 1) / det, (e0 0 * q 1 - q 0 * e0 1) / det]

/-- The triangle with vertices `(0,0), (1,0), (0,1)`. -/
def unit_triangle : Simplex 2 3 K := ![![0, 0], ![1, 0], ![0, 1]]

end PointTests

section BooleanTests

variable {K : Type} [LinearOrderedField K]

/-- One iteration of the loop of `distance2(bounds, vec)` (collision.inl:20-25) on
the running value of `out`. -/
def distance2_step {n : Nat} (b : Bounds n K) (p : Vec n K) (out : K) (i : Fin n) : K :=
  let v : K := p i
  let out1 : K := if v < b.min i then out + (b.min i - v) * (b.min i - v) else out
  if v > b.max i then out1 + (v - b.max i) * (v - b.max i) else out1

/-- The function `distance2(bounds, vec)` (collision.inl:16-27), its operations
taken exactly in the field `K`; `f32_distance2` is the same function with every
operation rounded to binary32. -/
def distance2 {n : Nat} (b : Bounds n K) (p : Vec n K) : K :=
  (List.finRange n).foldl (distance2_step b p) 0

/-- The function `distance2(vec, bounds)` (collision.inl:29-33). -/
def distance2_vec_bounds {n : Nat} (p : Vec n K) (b : Bounds n K) : K :=
  distance2 b p

/-- The function `collide(radial, radial)` (collision.inl:35-41), its operations
taken exactly in the field `K`; `f32_collide_radial_radial` is the same function
with every operation rounded to binary32. -/
def collide_radial_radial {n : Nat} (r r2 : Radial n K) : Bool :=
  let combinedR : K := (r.radius + r2.radius) * (r.radius + r2.radius)
  let distance : K := glm_distance2 r.center r2.center
  decide (distance - combinedR < eps)

/-- The function `collide(bounds, radial)` (collision.inl:43-47), its operations
taken exactly in the field `K`; `f32_collide_bounds_radial` is the same function
with every operation rounded to binary32. -/
def collide_bounds_radial {n : Nat} (b : Bounds n K) (r : Radial n K) : Bool :=
  decide (distance2 b r.center - r.radius * r.radius < eps)

/-- The function `collide(radial, bounds)` (collision.inl:49-53). -/
def collide_radial_bounds {n : Nat} (r : Radial n K) (b : Bounds n K) : Bool :=
  collide_bounds_radial b r

/-- The function `collide(bounds, bounds)` (collision.inl:55-66): false at the
first axis with `b.max[i] < b2.min[i] || b2.max[i] < b.min[i]`, true when the loop
ends. -/
def collide_bounds_bounds {n : Nat} (b b2 : Bounds n K) : Bool :=
  (List.finRange n).all
    (fun i => !(decide (b.max i < b2.min i) || decide (b2.max i < b.min i)))

/-- Modelled from the spec: the member `radial::radius2`, absent from the
translated files; the point-in-ball test compares with the squared radius. -/
def Radial.radius2 {n : Nat} (r : Radial n K) : K := r.radius * r.radius

/-- The function `collide(vec, radial)` (collision.inl:68-72). -/
def collide_point_radial {n : Nat} (p : Vec n K) (r : Radial n K) : Bool :=
  decide (glm_distance2 r.center p - r.radius2 < eps)

/-- The function `collide(radial, vec)` (collision.inl:74-78). -/
def collide_radial_point {n : Nat} (r : Radial n K) (p : Vec n K) : Bool :=
  collide_point_radial p r

/-- The function `collide(vec, bounds)` (collision.inl:80-87): false at the first
axis with `b.max[i] < p[i] || p[i] < b.min[i]`, true when the loop ends. -/
def collide_point_bounds {n : Nat} (p : Vec n K) (b : Bounds n K) : Bool :=
  (List.finRange n).all (fun i => !(decide (b.max i < p i) || decide (p i < b.min i)))

/-- The function `collide(bounds, vec)` (collision.inl:89-93). -/
def collide_bounds_point {n : Nat} (b : Bounds n K) (p : Vec n K) : Bool :=
  collide_point_bounds p b

/-- The function `collide(simplex, vec)` (collision.inl:117-121). -/
def collide_simplex_point {n m : Nat}
    (toBarycentric_reduced : Simplex n (m + 1) K → Vec n K → Vec m K)
    (toWorld : Simplex n (m + 1) K → Vec m K → Vec n K)
    (s : Simplex n (m + 1) K) (p : Vec n K) : Bool :=
  collide_point_simplex toBarycentric_reduced toWorld p s

/-- The function `collide(hyperplane, vec)` (collision.inl:129-133). -/
def collide_hyperplane_point {n : Nat} (h : Hyperplane n K) (p : Vec n K) : Bool :=
  collide_point_hyperplane p h

/-- All the ways to pick the lower or the upper bound on each of `n` axes. -/
def all_masks : (n : Nat) → List (Fin n → Bool)
  | 0 => [fun _ => false]
  | n + 1 => (all_masks n).flatMap
      (fun m => [Matrix.vecCons false m, Matrix.vecCons true m])

/-- The corner of the box that takes `b.max[i]` on the axes where `mask` is true
and `b.min[i]` on the others. -/
def corner {n : Nat} (b : Bounds n K) (mask : Fin n → Bool) : Vec n K :=
  fun i => if mask i then b.max i else b.min i

/-- Modelled from the spec: the vertices a range-for over a `bounds` visits (its
`begin()`/`end()` are absent from the translated files): the box's `2^N` corner
vertices.  The order is immaterial to `collide(hyperplane, bounds)`. -/
def bounds_vertices {n : Nat} (b : Bounds n K) : List (Vec n K) :=
  (all_masks n).map (corner b)

/-- The loop of `collide(hyperplane, bounds)` (collision.inl:321-328) over the
vertices left to visit, from the current values of `infront` and `behind`. -/
def collide_hyperplane_bounds_loop {n : Nat} (h : Hyperplane n K) :
    List (Vec n K) → Bool → Bool → Bool
  | [], _, _ => false
  | vertex :: rest, infront, behind =>
    let dotp : K := dot h.normal (vertex - h.origin)
    let infront1 : Bool := if dotp ≥ 0 then true else infront
    let behind1 : Bool := if dotp ≤ 0 then true else behind
    if infront1 && behind1 then true
    else collide_hyperplane_bounds_loop h rest infront1 behind1

/-- The function `collide(hyperplane, bounds)` (collision.inl:316-329). -/
def collide_hyperplane_bounds {n : Nat} (h : Hyperplane n K) (b : Bounds n K) : Bool :=
  collide_hyperplane_bounds_loop h (bounds_vertices b) false false

/-- The function `collide(bounds, hyperplane)` (collision.inl:331-335). -/
def collide_bounds_hyperplane {n : Nat} (b : Bounds n K) (h : Hyperplane n K) : Bool :=
  collide_hyperplane_bounds h b

/-- The function `glm::normalize(v)`, which is `v * inversesqrt(dot(v, v))`;
`sqrt` stands for `glm::sqrt`. -/
def normalize {n : Nat} (sqrt : K → K) (v : Vec n K) : Vec n K :=
  fun i => v i * (1 / sqrt (dot v v))

/-- The function `collide(hyperplane, radial)` (collision.inl:337-341).  The
source writes the right-hand side of `<=` as `r`, the ball itself; it is read
here as the radius of `r`. -/
def collide_hyperplane_radial {n : Nat} (sqrt : K → K) (h : Hyperplane n K)
    (r : Radial n K) : Bool :=
  decide (dot (normalize sqrt h.normal) (r.center - h.origin) ≤ r.radius)

/-- The function `collide(radial, hyperplane)` (collision.inl:343-347). -/
def collide_radial_hyperplane {n : Nat} (sqrt : K → K) (r : Radial n K)
    (h : Hyperplane n K) : Bool :=
  collide_hyperplane_radial sqrt h r

/-- The point of the box nearest to `p`: `p` clamped into `[b.min[i], b.max[i]]`
on each axis. -/
def clamp_into {n : Nat} (b : Bounds n K) (p : Vec n K) : Vec n K :=
  fun i => if p i < b.min i then b.min i else if p i > b.max i then b.max i else p i

/-- The squared amount by which `p` lies below `b.min[i]` or above `b.max[i]` on
axis `i`; zero when `p[i]` is within the bounds. -/
def axis_excess2 {n : Nat} (b : Bounds n K) (p : Vec n K) (i : Fin n) : K :=
  (if p i < b.min i then (b.min i - p i) ^ 2 else 0)
    + (if p i > b.max i then (p i - b.max i) ^ 2 else 0)

/-- The squared distance from a point to a box as the specification words it:
the sum over the axes of the squared per-axis excess. -/
def box_distance2_spec {n : Nat} (b : Bounds n K) (p : Vec n K) : K :=
  ∑ i, axis_excess2 b p i

end BooleanTests

section Binary32

/-- A finite IEEE 754 binary32 value (`vct = float`), held as the integer number
of units of `2^-149`, the smallest subnormal: every finite `float` is a whole
number of these units. -/
abbrev F32 := Int

/-- The number of binary digits of `a`, by repeated halving (`fuel` bounds the
number of halvings). -/
def bit_length_aux : Nat → Nat → Nat
  | 0, _ => 0
  | fuel + 1, a => if a = 0 then 0 else 1 + bit_length_aux fuel (a / 2)

/-- The number of binary digits of `a` (`0` for `a = 0`). -/
def bit_length (a : Nat) : Nat := bit_length_aux a a

/-- Rounding to the nearest binary32 value, ties to even.  The argument `v`
counts units of `2^-(149 + extra)`; the result counts units of `2^-149`.  The
rounded value keeps 24 significant bits, or fewer when that would go below the
unit `2^-149` (gradual underflow).  Overflow to infinity is not modelled. -/
def f32_round (extra : Nat) (v : Int) : F32 :=
  let a : Nat := v.natAbs
  let sh : Nat := max (bit_length a - 24) extra
  let qt : Nat := a / 2 ^ sh
  let rem : Nat := a % 2 ^ sh
  let half : Nat := 2 ^ (sh - 1)
  let n : Nat :=
    if sh = 0 then a
    else if rem > half then qt + 1
    else if rem < half then qt
    else if qt % 2 = 0 then qt else qt + 1
  let res : Int := ((n * 2 ^ (sh - extra) : Nat) : Int)
  if v < 0 then -res else res

/-- The binary32 value `m / 2^e`, for `|m| < 2^24` and `e <= 149`. -/
def f32_of (m : Int) (e : Nat) : F32 := m * ((2 ^ (149 - e) : Nat) : Int)

/-- The rational number a binary32 value stands for. -/
def f32_val (x : F32) : ℚ := (x : ℚ) / 2 ^ 149

/-- The `float` sum `x + y`: the exact sum, rounded. -/
def f32_add (x y : F32) : F32 := f32_round 0 (x + y)

/-- The `float` difference `x - y`: the exact difference, rounded. -/
def f32_sub (x y : F32) : F32 := f32_round 0 (x - y)

/-- The `float` product `x * y`: the exact product, which counts units of
`2^-298`, rounded. -/
def f32_mul (x y : F32) : F32 := f32_round 149 (x * y)

/-- The `double` literal `1e-6`, that is `4722366482869645 * 2^-72`, in units of
`2^-149`; a `float` compared with it is first converted to `double`, exactly. -/
def f32_eps : Int := 4722366482869645 * ((2 ^ 77 : Nat) : Int)

/-- The function `glm::dot` on `float` vectors: the products are summed from the
first component on, each operation rounded (glm's order for `vcl <= 3`). -/
def f32_dot {n : Nat} (a b : Vec n F32) : F32 :=
  (List.finRange n).foldl (fun acc i => f32_add acc (f32_mul (a i) (b i))) 0

/-- The function `glm::length2` on `float` vectors. -/
def f32_length2 {n : Nat} (a : Vec n F32) : F32 := f32_dot a a

/-- The function `glm::distance2(p0, p1)` on `float` vectors, which is
`length2(p1 - p0)`. -/
def f32_glm_distance2 {n : Nat} (p0 p1 : Vec n F32) : F32 :=
  f32_length2 (fun i => f32_sub (p1 i) (p0 i))

/-- The function `collide(radial, radial)` (collision.inl:35-41) for
`vct = float`, every operation rounded to binary32. -/
def f32_collide_radial_radial {n : Nat} (r r2 : Radial n F32) : Bool :=
  let combinedR : F32 := f32_mul (f32_add r.radius r2.radius) (f32_add r.radius r2.radius)
  let distance : F32 := f32_glm_distance2 r.center r2.center
  decide (f32_sub distance combinedR < f32_eps)

/-- One iteration of the loop of `distance2(bounds, vec)` (collision.inl:20-25)
for `vct = float`. -/
def f32_distance2_step {n : Nat} (b : Bounds n F32) (p : Vec n F32) (out : F32)
    (i : Fin n) : F32 :=
  let v : F32 := p i
  let out1 : F32 :=
    if v < b.min i then f32_add out (f32_mul (f32_sub (b.min i) v) (f32_sub (b.min i) v))
    else out
  if v > b.max i then f32_add out1 (f32_mul (f32_sub v (b.max i)) (f32_sub v (b.max i)))
  else out1

/-- The function `distance2(bounds, vec)` (collision.inl:16-27) for
`vct = float`. -/
def f32_distance2 {n : Nat} (b : Bounds n F32) (p : Vec n F32) : F32 :=
  (List.finRange n).foldl (f32_distance2_step b p) 0

/-- The function `collide(bounds, radial)` (collision.inl:43-47) for
`vct = float`. -/
def f32_collide_bounds_radial {n : Nat} (b : Bounds n F32) (r : Radial n F32) : Bool :=
  decide (f32_sub (f32_distance2 b r.center) (f32_mul r.radius r.radius) < f32_eps)

/-- The function `collide(vec, bounds)` (collision.inl:80-87) for `vct = float`:
comparisons only, nothing is rounded. -/
def f32_collide_point_bounds {n : Nat} (p : Vec n F32) (b : Bounds n F32) : Bool :=
  (List.finRange n).all (fun i => !(decide (b.max i < p i) || decide (p i < b.min i)))

end Binary32

/-- C1 (code defect): at the ray with origin `(0,0)`, direction `(1,1)` and the
box `[0,1] x [5,6]`, the per-axis slab test of the specification narrows to the
empty interval `[5, 1]` and answers false, while `collide(ray, bounds, ..)`
answers true with `[0, 1]`, the interval of axis 0 alone. -/
theorem collide_ray_bounds_ignores_axis_one :
    collide_ray_bounds (K := ℚ) ⟨![0, 0], ![1, 1]⟩ ⟨![0, 5], ![1, 6]⟩
        = (true, Ext.fin 0, Ext.fin 1)
      ∧ slab_spec (K := ℚ) ⟨![0, 0], ![1, 1]⟩ ⟨![0, 5], ![1, 6]⟩
        = (false, Ext.fin 5, Ext.fin 1) := by
  have h2 : List.finRange 2 = [0, 1] := rfl
  constructor
  · norm_num [collide_ray_bounds, collide_ray_bounds_step, h2, Ext.gmax, Ext.gmin, Ext.lt,
      Ext.ge, gmax, gmin]
  · norm_num [slab_spec, slab_spec_step, h2, Ext.gmax, Ext.gmin, Ext.lt, Ext.ge, gmax, gmin]

/-- The nested self-call of `collide(hyperplane, ray, t_out)` never returns,
whatever the fuel. -/
theorem collide_hyperplane_ray_none {K : Type} [LinearOrderedField K] {n : Nat}
    (fuel : Nat) (h : Hyperplane n K) (r : Ray n K) (t_out : K) :
    collide_hyperplane_ray fuel h r t_out = none := by
  induction fuel with
  | zero => rfl
  | succ k ih => simpa [collide_hyperplane_ray] using ih

/-- C2 (code defect): the reversed form `collide(hyperplane, ray, t_out)` calls
itself instead of the ray-first form, so it returns nothing for any amount of
fuel, while the ray-first form returns: for the plane through `(0,0)` with normal
`(0,1)` and the ray from `(0,1)` with direction `(0,-1)` it answers true with
`t_out = 1`. -/
theorem collide_hyperplane_ray_diverges :
    (∀ (fuel : Nat) (h : Hyperplane 2 ℚ) (r : Ray 2 ℚ) (t_out : ℚ),
        collide_hyperplane_ray fuel h r t_out = none)
      ∧ collide_ray_hyperplane (K := ℚ) ⟨![0, 1], ![0, -1]⟩ ⟨![0, 0], ![0, 1]⟩ 0
        = (true, 1) := by
  refine ⟨fun fuel h r t_out => collide_hyperplane_ray_none fuel h r t_out, ?_⟩
  norm_num [collide_ray_hyperplane, dot, eps, Fin.sum_univ_succ]

/-- C3 (code defect): `ray::operator*` hands `direction * transform` to the
constructor as the origin and `origin * transform` as the direction.  For the ray
with origin `(1,0)` and direction `(0,1)` and the identity map, both the linear
and the affine product give the ray with origin `(0,1)` and direction `(1,0)`,
which `operator==` tells apart from the ray itself. -/
theorem ray_mul_identity_swaps :
    Ray.mul_linear (K := ℚ) ⟨![1, 0], ![0, 1]⟩ (mat_identity 2) = ⟨![0, 1], ![1, 0]⟩
      ∧ Ray.mul_affine (K := ℚ) ⟨![1, 0], ![0, 1]⟩ (mat_identity 3) = ⟨![0, 1], ![1, 0]⟩
      ∧ Ray.beq (Ray.mul_linear (K := ℚ) ⟨![1, 0], ![0, 1]⟩ (mat_identity 2))
          ⟨![1, 0], ![0, 1]⟩ = false
      ∧ Ray.beq (Ray.mul_affine (K := ℚ) ⟨![1, 0], ![0, 1]⟩ (mat_identity 3))
          ⟨![1, 0], ![0, 1]⟩ = false := by
  have h1 : Ray.mul_linear (K := ℚ) ⟨![1, 0], ![0, 1]⟩ (mat_identity 2)
      = ⟨![0, 1], ![1, 0]⟩ := by
    simp only [Ray.mul_linear, Ray.ctor, Ray.mk.injEq]
    constructor <;> funext j <;> fin_cases j <;>
      simp [vec_mul_mat, mat_identity, Fin.sum_univ_succ]
  have h2 : Ray.mul_affine (K := ℚ) ⟨![1, 0], ![0, 1]⟩ (mat_identity 3)
      = ⟨![0, 1], ![1, 0]⟩ := by
    simp only [Ray.mul_affine, Ray.ctor, Ray.mk.injEq]
    constructor <;> funext j <;> fin_cases j <;>
      simp [vec_mul_mat, vec_truncate, vec_extend, mat_identity, Fin.sum_univ_succ] <;>
      decide
  have hne : (![1, 0] : Vec 2 ℚ) ≠ ![0, 1] := by
    intro h
    have := congrFun h 0
    simp at this
  refine ⟨h1, h2, ?_, ?_⟩
  · rw [h1]
    simp [Ray.beq, hne]
  · rw [h2]
    simp [Ray.beq, hne]

/-- A non-zero vector has positive squared length. -/
theorem length2_pos_of_ne_zero {K : Type} [LinearOrderedField K] {n : Nat}
    (d : Vec n K) (hd : d ≠ 0) : 0 < length2 d := by
  have hex : ∃ i, d i ≠ 0 := by
    by_contra hcon
    push_neg at hcon
    exact hd (funext hcon)
  obtain ⟨i, hi⟩ := hex
  unfold length2 dot
  apply Finset.sum_pos'
  · intro j _
    exact mul_self_nonneg (d j)
  · exact ⟨i, Finset.mem_univ i, mul_self_pos.mpr hi⟩

/-- The squared distance from the centre to the point of parameter `t` on the
ray is the ray-sphere quadratic plus the squared radius. -/
theorem distance2_point_at {K : Type} [LinearOrderedField K] {n : Nat}
    (ry : Ray n K) (rd : Radial n K) (t : K) :
    glm_distance2 rd.center (point_at ry t) = sphere_quadratic ry rd t + rd.radius ^ 2 := by
  unfold glm_distance2 sphere_quadratic length2 dot point_at
  simp only [Pi.sub_apply]
  have hsum : ∑ i, (ry.origin i + t * ry.direction i - rd.center i)
        * (ry.origin i + t * ry.direction i - rd.center i)
      = ∑ i, (ry.direction i * ry.direction i * t ^ 2
          + 2 * ((ry.origin i - rd.center i) * ry.direction i) * t
          + (ry.origin i - rd.center i) * (ry.origin i - rd.center i)) :=
    Finset.sum_congr rfl (fun i _ => by ring)
  rw [hsum, Finset.sum_add_distrib, Finset.sum_add_distrib, ← Finset.sum_mul,
    ← Finset.sum_mul, ← Finset.mul_sum]
  ring

/-- The ray-sphere test over any ordered field in which `sqrt` is a square root
of the discriminant: the verdict is true exactly when the quadratic has a root
and every root is positive, and then the outputs are the two roots in order. -/
theorem collide_ray_radial_general {K : Type} [LinearOrderedField K] {n : Nat}
    (sqrt : K → K) (ry : Ray n K) (rd : Radial n K) (tmin_out tmax_out : K)
    (hd : ry.direction ≠ 0)
    (hsq : 0 ≤ ray_radial_discriminant ry rd →
      0 ≤ sqrt (ray_radial_discriminant ry rd)
        ∧ sqrt (ray_radial_discriminant ry rd) * sqrt (ray_radial_discriminant ry rd)
          = ray_radial_discriminant ry rd) :
    ((collide_ray_radial sqrt ry rd tmin_out tmax_out).1 = true ↔
        (∃ t, sphere_quadratic ry rd t = 0) ∧ ∀ t, sphere_quadratic ry rd t = 0 → 0 < t)
      ∧ ((collide_ray_radial sqrt ry rd tmin_out tmax_out).1 = true →
          (collide_ray_radial sqrt ry rd tmin_out tmax_out).2.1
              ≤ (collide_ray_radial sqrt ry rd tmin_out tmax_out).2.2
            ∧ (∀ t, sphere_quadratic ry rd t = 0 ↔
                t = (collide_ray_radial sqrt ry rd tmin_out tmax_out).2.1
                  ∨ t = (collide_ray_radial sqrt ry rd tmin_out tmax_out).2.2)
            ∧ glm_distance2 rd.center
                (point_at ry (collide_ray_radial sqrt ry rd tmin_out tmax_out).2.1)
                = rd.radius ^ 2
            ∧ glm_distance2 rd.center
                (point_at ry (collide_ray_radial sqrt ry rd tmin_out tmax_out).2.2)
                = rd.radius ^ 2) := by
  have ha : 0 < length2 ry.direction := length2_pos_of_ne_zero ry.direction hd
  set a : K := length2 ry.direction with ha_def
  set b : K := 2 * dot (ry.origin - rd.center) ry.direction with hb_def
  set c : K := length2 (ry.origin - rd.center) - rd.radius * rd.radius with hc_def
  have hD : ray_radial_discriminant ry rd = b * b - 4 * a * c := rfl
  have hQ : ∀ t, sphere_quadratic ry rd t = a * t ^ 2 + b * t + c := by
    intro t
    simp only [sphere_quadratic, ha_def, hb_def, hc_def]
    ring
  rw [hD] at hsq
  have hne : a ≠ 0 := ne_of_gt ha
  by_cases hneg : b * b - 4 * a * c < 0
  · -- no real root
    have hres : collide_ray_radial sqrt ry rd tmin_out tmax_out
        = (false, tmin_out, tmax_out) := by
      simp only [collide_ray_radial]
      rw [if_pos hneg]
    have hnoroot : ∀ t, sphere_quadratic ry rd t ≠ 0 := by
      intro t ht
      rw [hQ] at ht
      have hsqr : b * b - 4 * a * c = (2 * a * t + b) ^ 2 := by
        have : c = -(a * t ^ 2 + b * t) := by linarith
        rw [this]
        ring
      have := sq_nonneg (2 * a * t + b)
      linarith
    rw [hres]
    refine ⟨⟨fun h => by simp at h, fun h => ?_⟩, fun h => by simp at h⟩
    obtain ⟨⟨t, ht⟩, _⟩ := h
    exact absurd ht (hnoroot t)
  · have hnn : 0 ≤ b * b - 4 * a * c := not_lt.mp hneg
    obtain ⟨hs0, hss⟩ := hsq hnn
    set sq : K := sqrt (b * b - 4 * a * c) with hsq_def
    have hres : collide_ray_radial sqrt ry rd tmin_out tmax_out
        = (decide ((-b - sq) / (2 * a) > 0) && decide ((-b + sq) / (2 * a) > 0),
            (-b - sq) / (2 * a), (-b + sq) / (2 * a)) := by
      simp only [collide_ray_radial]
      rw [if_neg hneg]
    have hfac : ∀ t, sphere_quadratic ry rd t
        = a * (t - (-b - sq) / (2 * a)) * (t - (-b + sq) / (2 * a)) := by
      intro t
      rw [hQ]
      have hc : c = (b * b - sq * sq) / (4 * a) := by
        rw [hss]
        field_simp
      rw [hc]
      field_simp
      ring
    have hroot : ∀ t, sphere_quadratic ry rd t = 0 ↔
        t = (-b - sq) / (2 * a) ∨ t = (-b + sq) / (2 * a) := by
      intro t
      rw [hfac]
      constructor
      · intro h
        rcases mul_eq_zero.mp h with h1 | h1
        · rcases mul_eq_zero.mp h1 with h2 | h2
          · exact absurd h2 hne
          · exact Or.inl (sub_eq_zero.mp h2)
        · exact Or.inr (sub_eq_zero.mp h1)
      · rintro (h | h) <;> rw [h] <;> simp
    have hle : (-b - sq) / (2 * a) ≤ (-b + sq) / (2 * a) := by
      apply div_le_div_of_nonneg_right _ (by linarith)
      linarith
    rw [hres]
    refine ⟨⟨fun h => ?_, fun h => ?_⟩, fun _ => ⟨hle, hroot, ?_, ?_⟩⟩
    · simp only [Bool.and_eq_true, decide_eq_true_eq] at h
      refine ⟨⟨_, (hroot _).mpr (Or.inl rfl)⟩, fun t ht => ?_⟩
      rcases (hroot t).mp ht with h1 | h1 <;> rw [h1]
      · exact h.1
      · exact h.2
    · simp only [Bool.and_eq_true, decide_eq_true_eq]
      exact ⟨h.2 _ ((hroot _).mpr (Or.inl rfl)), h.2 _ ((hroot _).mpr (Or.inr rfl))⟩
    · rw [distance2_point_at, (hroot _).mpr (Or.inl rfl), zero_add]
    · rw [distance2_point_at, (hroot _).mpr (Or.inr rfl), zero_add]

/-- The rational square root of `4` is `2`. -/
theorem qsqrt_four : qsqrt 4 = 2 := by
  have h : Nat.sqrt 4 = 2 := Nat.sqrt_eq 2
  have h4 : ((4 : ℚ).num).toNat = 4 := rfl
  have hd : (4 : ℚ).den = 1 := rfl
  have h1 : Nat.sqrt 1 = 1 := Nat.sqrt_eq 1
  rw [qsqrt, h4, hd, h, h1]
  norm_num

/-- C4: for a ray with non-zero direction, over any ordered field in which
`sqrt` returns a non-negative square root of the (non-negative) discriminant,
`collide(ray, radial, tmin_out, tmax_out)` is true iff the quadratic
`|d|^2 t^2 + 2 dot(o - c, d) t + |o - c|^2 - r^2` has a root and all its roots are
strictly positive; on true, `tmin_out <= tmax_out` are exactly the roots and both
hit points are at squared distance `r^2` from the centre.  The literal case
`o = (0,0,-5)`, `c = 0`, `r = 1` gives true with `t = 4, 6` for `d = (0,0,1)` and
false for `d = (0,0,-1)`. -/
theorem collide_ray_radial_roots :
    (∀ (K : Type) [LinearOrderedField K] (n : Nat) (sqrt : K → K) (ry : Ray n K)
        (rd : Radial n K) (tmin_out tmax_out : K),
        ry.direction ≠ 0 →
        (0 ≤ ray_radial_discriminant ry rd →
          0 ≤ sqrt (ray_radial_discriminant ry rd)
            ∧ sqrt (ray_radial_discriminant ry rd) * sqrt (ray_radial_discriminant ry rd)
              = ray_radial_discriminant ry rd) →
        ((collide_ray_radial sqrt ry rd tmin_out tmax_out).1 = true ↔
            (∃ t, sphere_quadratic ry rd t = 0)
              ∧ ∀ t, sphere_quadratic ry rd t = 0 → 0 < t)
          ∧ ((collide_ray_radial sqrt ry rd tmin_out tmax_out).1 = true →
              (collide_ray_radial sqrt ry rd tmin_out tmax_out).2.1
                  ≤ (collide_ray_radial sqrt ry rd tmin_out tmax_out).2.2
                ∧ (∀ t, sphere_quadratic ry rd t = 0 ↔
                    t = (collide_ray_radial sqrt ry rd tmin_out tmax_out).2.1
                      ∨ t = (collide_ray_radial sqrt ry rd tmin_out tmax_out).2.2)
                ∧ glm_distance2 rd.center
                    (point_at ry (collide_ray_radial sqrt ry rd tmin_out tmax_out).2.1)
                    = rd.radius ^ 2
                ∧ glm_distance2 rd.center
                    (point_at ry (collide_ray_radial sqrt ry rd tmin_out tmax_out).2.2)
                    = rd.radius ^ 2))
      ∧ collide_ray_radial qsqrt ⟨![0, 0, -5], ![0, 0, 1]⟩ ⟨![0, 0, 0], 1⟩ 0 0
          = (true, 4, 6)
      ∧ (collide_ray_radial qsqrt ⟨![0, 0, -5], ![0, 0, -1]⟩ ⟨![0, 0, 0], 1⟩ 0 0).1
          = false := by
  refine ⟨fun K _ n sqrt ry rd tmin_out tmax_out hd hsq =>
    collide_ray_radial_general sqrt ry rd tmin_out tmax_out hd hsq, ?_, ?_⟩
  · norm_num [collide_ray_radial, length2, dot, Fin.sum_univ_succ, qsqrt_four]
  · norm_num [collide_ray_radial, length2, dot, Fin.sum_univ_succ, qsqrt_four]

/-- C4 at the literal case: the ray from `(0,0,-5)` along `(0,0,1)` and the unit
ball at the origin, with the rational square root. -/
theorem collide_ray_radial_roots_witness :
    ((collide_ray_radial qsqrt (⟨![0, 0, -5], ![0, 0, 1]⟩ : Ray 3 ℚ) ⟨![0, 0, 0], 1⟩ 0 0).1
        = true ↔
      (∃ t, sphere_quadratic (⟨![0, 0, -5], ![0, 0, 1]⟩ : Ray 3 ℚ) ⟨![0, 0, 0], 1⟩ t = 0)
        ∧ ∀ t, sphere_quadratic (⟨![0, 0, -5], ![0, 0, 1]⟩ : Ray 3 ℚ) ⟨![0, 0, 0], 1⟩ t = 0
            → 0 < t) := by
  have hD : ray_radial_discriminant (⟨![0, 0, -5], ![0, 0, 1]⟩ : Ray 3 ℚ) ⟨![0, 0, 0], 1⟩
      = 4 := by
    norm_num [ray_radial_discriminant, length2, dot, Fin.sum_univ_succ]
  have hdir : (⟨![0, 0, -5], ![0, 0, 1]⟩ : Ray 3 ℚ).direction ≠ 0 := by
    intro h
    have := congrFun h 2
    simp at this
  exact (collide_ray_radial_roots.1 ℚ 3 qsqrt ⟨![0, 0, -5], ![0, 0, 1]⟩ ⟨![0, 0, 0], 1⟩ 0 0
    hdir (by rw [hD, qsqrt_four]; norm_num)).1

/-- The hit point minus the plane origin, dotted with the normal, splits into
the origin part and `t` times the direction part. -/
theorem dot_point_at_sub {K : Type} [LinearOrderedField K] {n : Nat}
    (r : Ray n K) (h : Hyperplane n K) (t : K) :
    dot (point_at r t - h.origin) h.normal
      = t * dot r.direction h.normal - dot (h.origin - r.origin) h.normal := by
  unfold dot point_at
  rw [Finset.mul_sum, ← Finset.sum_sub_distrib]
  exact Finset.sum_congr rfl (fun i _ => by simp only [Pi.sub_apply]; ring)

/-- C5: `collide(ray, hyperplane, t_out)` returns false, leaving `t_out`, when
`dot(direction, normal) > -1e-6`; otherwise it sets
`t_out = dot(h.origin - r.origin, h.normal) / dot(r.direction, h.normal)` and
returns true iff `t_out >= 0`.  Whenever it returns true, `t_out >= 0` and the hit
point `r.origin + t_out * r.direction` satisfies
`dot(hit - h.origin, h.normal) = 0`. -/
theorem collide_ray_hyperplane_contract {K : Type} [LinearOrderedField K] {n : Nat}
    (r : Ray n K) (h : Hyperplane n K) (t_out : K) :
    (dot r.direction h.normal > -eps →
        collide_ray_hyperplane r h t_out = (false, t_out))
      ∧ (¬ dot r.direction h.normal > -eps →
          collide_ray_hyperplane r h t_out
            = (decide (dot (h.origin - r.origin) h.normal / dot r.direction h.normal ≥ 0),
                dot (h.origin - r.origin) h.normal / dot r.direction h.normal))
      ∧ ((collide_ray_hyperplane r h t_out).1 = true →
          0 ≤ (collide_ray_hyperplane r h t_out).2
            ∧ dot (point_at r (collide_ray_hyperplane r h t_out).2 - h.origin) h.normal
              = 0) := by
  refine ⟨fun hpar => ?_, fun hpar => ?_, fun htrue => ?_⟩
  · simp only [collide_ray_hyperplane]
    rw [if_pos hpar]
  · simp only [collide_ray_hyperplane]
    rw [if_neg hpar]
  · by_cases hpar : dot r.direction h.normal > -eps
    · have hres : collide_ray_hyperplane r h t_out = (false, t_out) := by
        simp only [collide_ray_hyperplane]
        rw [if_pos hpar]
      rw [hres] at htrue
      simp at htrue
    · have hres : collide_ray_hyperplane r h t_out
          = (decide (dot (h.origin - r.origin) h.normal / dot r.direction h.normal ≥ 0),
              dot (h.origin - r.origin) h.normal / dot r.direction h.normal) := by
        simp only [collide_ray_hyperplane]
        rw [if_neg hpar]
      rw [hres] at htrue ⊢
      simp only [decide_eq_true_eq] at htrue
      have hden : dot r.direction h.normal ≠ 0 := by
        have hpos : (0 : K) < eps := by unfold eps; norm_num
        intro h0
        rw [h0] at hpar
        exact hpar (by linarith)
      refine ⟨htrue, ?_⟩
      rw [dot_point_at_sub, div_mul_cancel₀ _ hden, sub_self]

/-- C5 at a concrete input: the ray from `(0,1)` along `(0,-1)` hits the plane
through `(0,0)` with normal `(0,1)` at `t_out = 1 >= 0`, on the plane. -/
theorem collide_ray_hyperplane_contract_witness :
    0 ≤ (collide_ray_hyperplane (K := ℚ) ⟨![0, 1], ![0, -1]⟩ ⟨![0, 0], ![0, 1]⟩ 0).2
      ∧ dot (point_at (K := ℚ) ⟨![0, 1], ![0, -1]⟩
            (collide_ray_hyperplane (K := ℚ) ⟨![0, 1], ![0, -1]⟩ ⟨![0, 0], ![0, 1]⟩ 0).2
          - (⟨![0, 0], ![0, 1]⟩ : Hyperplane 2 ℚ).origin)
          (⟨![0, 0], ![0, 1]⟩ : Hyperplane 2 ℚ).normal = 0 :=
  (collide_ray_hyperplane_contract (K := ℚ) ⟨![0, 1], ![0, -1]⟩ ⟨![0, 0], ![0, 1]⟩ 0).2.2
    (by norm_num [collide_ray_hyperplane, dot, eps, Fin.sum_univ_succ])

/-- C6 (as stated, refuted): the ray from `(0,0)` along `(0,-1)` and the plane
through `(0,1)` with normal `(0,1)`: `collide(ray, hyperplane, t_out)` called with
`t_out = 7` returns false and leaves `t_out = -1`.  Likewise the ray-sphere test
on the ray from `(0,0,-5)` along `(0,0,-1)` and the unit ball, called with
outputs `0, 0`, returns false and leaves `-6, -4`. -/
theorem parametric_outputs_overwritten_on_false :
    collide_ray_hyperplane (K := ℚ) ⟨![0, 0], ![0, -1]⟩ ⟨![0, 1], ![0, 1]⟩ 7 = (false, -1)
      ∧ collide_ray_radial qsqrt ⟨![0, 0, -5], ![0, 0, -1]⟩ ⟨![0, 0, 0], 1⟩ 0 0
          = (false, -6, -4) := by
  constructor
  · norm_num [collide_ray_hyperplane, dot, eps, Fin.sum_univ_succ]
  · norm_num [collide_ray_radial, length2, dot, Fin.sum_univ_succ, qsqrt_four]

/-- C6 (amended): the segment form `collide(ray, radial, s_out)` leaves `s_out` as
it was whenever it returns false.  The scalar forms `collide(ray, hyperplane,
t_out)` and `collide(ray, radial, tmin_out, tmax_out)` leave their outputs as they
were only on their early rejection: ray x hyperplane when
`dot(direction, normal) > -1e-6`, ray x radial when the discriminant is negative;
past that point the outputs hold the computed parameters whatever the verdict. -/
theorem parametric_outputs_frame :
    (∀ (K : Type) [LinearOrderedField K] (n : Nat) (r : Ray n K) (h : Hyperplane n K)
        (t_out : K),
        (dot r.direction h.normal > -eps →
          collide_ray_hyperplane r h t_out = (false, t_out))
        ∧ (¬ dot r.direction h.normal > -eps →
          (collide_ray_hyperplane r h t_out).2
            = dot (h.origin - r.origin) h.normal / dot r.direction h.normal))
      ∧ (∀ (K : Type) [LinearOrderedField K] (n : Nat) (sqrt : K → K) (ry : Ray n K)
          (rd : Radial n K) (tmin_out tmax_out : K),
          (ray_radial_discriminant ry rd < 0 →
            collide_ray_radial sqrt ry rd tmin_out tmax_out = (false, tmin_out, tmax_out))
          ∧ (¬ ray_radial_discriminant ry rd < 0 →
            (collide_ray_radial sqrt ry rd tmin_out tmax_out).2
              = ((-(2 * dot (ry.origin - rd.center) ry.direction)
                    - sqrt (ray_radial_discriminant ry rd)) / (2 * length2 ry.direction),
                 (-(2 * dot (ry.origin - rd.center) ry.direction)
                    + sqrt (ray_radial_discriminant ry rd)) / (2 * length2 ry.direction))))
      ∧ (∀ (K : Type) [LinearOrderedField K] (n : Nat) (sqrt : K → K)
          (tmin_init tmax_init : K) (ry : Ray n K) (rd : Radial n K) (s_out : Simplex n 2 K),
          (collide_ray_radial_segment sqrt tmin_init tmax_init ry rd s_out).1 = false →
          (collide_ray_radial_segment sqrt tmin_init tmax_init ry rd s_out).2 = s_out) := by
  refine ⟨?_, ?_, ?_⟩
  · intro K _ n r h t_out
    constructor
    · intro hpar
      simp only [collide_ray_hyperplane]
      rw [if_pos hpar]
    · intro hpar
      simp only [collide_ray_hyperplane]
      rw [if_neg hpar]
  · intro K _ n sqrt ry rd tmin_out tmax_out
    constructor
    · intro hneg
      have hneg2 : 2 * dot (ry.origin - rd.center) ry.direction
            * (2 * dot (ry.origin - rd.center) ry.direction)
          - 4 * length2 ry.direction
            * (length2 (ry.origin - rd.center) - rd.radius * rd.radius) < 0 := hneg
      simp only [collide_ray_radial]
      rw [if_pos hneg2]
    · intro hneg
      have hneg2 : ¬ 2 * dot (ry.origin - rd.center) ry.direction
            * (2 * dot (ry.origin - rd.center) ry.direction)
          - 4 * length2 ry.direction
            * (length2 (ry.origin - rd.center) - rd.radius * rd.radius) < 0 := hneg
      simp only [collide_ray_radial]
      rw [if_neg hneg2]
      rfl
  · intro K _ n sqrt tmin_init tmax_init ry rd s_out hfalse
    unfold collide_ray_radial_segment at hfalse ⊢
    split at hfalse
    · simp at hfalse
    · rfl

/-- C6 (amended) at concrete inputs, each returning false.  The ray from `(0,0)`
along `(1,0)` is parallel to the plane through `(0,1)` with normal `(0,1)`:
`t_out` keeps the value `7`.  The ray from `(0,5,-5)` along `(0,0,1)` misses the
unit ball (negative discriminant): the outputs keep `7, 8`.  The ray from
`(0,0,-5)` along `(0,0,-1)` points away from the unit ball (roots `-6, -4`): the
segment form keeps the segment `(1,2,3), (4,5,6)` in `s_out`. -/
theorem parametric_outputs_frame_witness :
    collide_ray_hyperplane (K := ℚ) ⟨![0, 0], ![1, 0]⟩ ⟨![0, 1], ![0, 1]⟩ 7 = (false, 7)
      ∧ collide_ray_radial qsqrt ⟨![0, 5, -5], ![0, 0, 1]⟩ ⟨![0, 0, 0], 1⟩ 7 8
          = (false, 7, 8)
      ∧ (collide_ray_radial_segment qsqrt 0 0 ⟨![0, 0, -5], ![0, 0, -1]⟩ ⟨![0, 0, 0], 1⟩
          ![![1, 2, 3], ![4, 5, 6]]).2 = ![![1, 2, 3], ![4, 5, 6]] := by
  refine ⟨?_, ?_, ?_⟩
  · exact (parametric_outputs_frame.1 ℚ 2 ⟨![0, 0], ![1, 0]⟩ ⟨![0, 1], ![0, 1]⟩ 7).1
      (by norm_num [dot, eps, Fin.sum_univ_succ])
  · exact (parametric_outputs_frame.2.1 ℚ 3 qsqrt ⟨![0, 5, -5], ![0, 0, 1]⟩
      ⟨![0, 0, 0], 1⟩ 7 8).1
      (by norm_num [ray_radial_discriminant, length2, dot, Fin.sum_univ_succ])
  · have hres : collide_ray_radial qsqrt ⟨![0, 0, -5], ![0, 0, -1]⟩ ⟨![0, 0, 0], 1⟩ 0 0
        = (false, -6, -4) := by
      norm_num [collide_ray_radial, length2, dot, Fin.sum_univ_succ, qsqrt_four]
    exact parametric_outputs_frame.2.2 ℚ 3 qsqrt 0 0 ⟨![0, 0, -5], ![0, 0, -1]⟩
      ⟨![0, 0, 0], 1⟩ ![![1, 2, 3], ![4, 5, 6]]
      (by simp only [collide_ray_radial_segment, hres])

/-- The face test `collide(ray, simplex<vcl, vcl>, t_out)` never returns: its
first step is the call `collide(h, r, t_out)` of the hyperplane-first form. -/
theorem collide_ray_simplex_none {K : Type} [LinearOrderedField K] {n : Nat}
    (mk_hyperplane : Simplex n n K → Hyperplane n K)
    (toBarycentric : Simplex n n K → Vec n K → Vec n K)
    (fuel : Nat) (r : Ray n K) (s : Simplex n n K) (t_out : K) :
    collide_ray_simplex mk_hyperplane toBarycentric fuel r s t_out = none := by
  simp only [collide_ray_simplex, collide_hyperplane_ray_none]

/-- Once a nested call has not returned, the outer loop of the full-simplex test
stays without a result. -/
theorem collide_ray_simplex_full_step_none {K : Type} [LinearOrderedField K] {n : Nat}
    (mk_hyperplane : Simplex n n K → Hyperplane n K)
    (toBarycentric : Simplex n n K → Vec n K → Vec n K)
    (s2_init : Simplex n n K) (t_init : K) (fuel : Nat) (r : Ray n K)
    (s : Simplex n (n + 1) K) (l : List (Fin n)) :
    l.foldl (collide_ray_simplex_full_step mk_hyperplane toBarycentric s2_init t_init
      fuel r s) none = none := by
  induction l with
  | nil => rfl
  | cons i l ih => simpa [List.foldl_cons, collide_ray_simplex_full_step] using ih

/-- In dimension at least one the full-simplex test never returns. -/
theorem collide_ray_simplex_full_none {K : Type} [LinearOrderedField K] {n : Nat}
    (mk_hyperplane : Simplex (n + 1) (n + 1) K → Hyperplane (n + 1) K)
    (toBarycentric : Simplex (n + 1) (n + 1) K → Vec (n + 1) K → Vec (n + 1) K)
    (fmax fmin : K) (s2_init : Simplex (n + 1) (n + 1) K) (t_init : K) (fuel : Nat)
    (r : Ray (n + 1) K) (s : Simplex (n + 1) (n + 2) K) :
    collide_ray_simplex_full mk_hyperplane toBarycentric fmax fmin s2_init t_init fuel r s
      = none := by
  unfold collide_ray_simplex_full
  rw [List.finRange_succ_eq_map, List.foldl_cons]
  have hstep : collide_ray_simplex_full_step mk_hyperplane toBarycentric s2_init t_init
      fuel r s (some (fmax, fmin, false)) 0 = none := by
    simp only [collide_ray_simplex_full_step, collide_simplex_ray, collide_ray_simplex_none]
  rw [hstep, collide_ray_simplex_full_step_none]

/-- C7 (code defect): in every dimension `vcl >= 1` the full-simplex ray test
returns nothing for any amount of fuel, because each face test ends in the
self-call of `collide(hyperplane, ray, t_out)`.  Besides, the faces it builds are
not the faces of the simplex: for the triangle `A = (0,0), B = (1,0), C = (0,1)`
the two faces built are `(B, d)` and `(A, d)`, where `d` is the second point of
the default-constructed simplex; vertex `C` is in none and no third face is
built. -/
theorem collide_ray_simplex_full_defects :
    (∀ (K : Type) [LinearOrderedField K] (n : Nat)
        (mk_hyperplane : Simplex (n + 1) (n + 1) K → Hyperplane (n + 1) K)
        (toBarycentric : Simplex (n + 1) (n + 1) K → Vec (n + 1) K → Vec (n + 1) K)
        (fmax fmin : K) (s2_init : Simplex (n + 1) (n + 1) K) (t_init : K) (fuel : Nat)
        (r : Ray (n + 1) K) (s : Simplex (n + 1) (n + 2) K),
        collide_ray_simplex_full mk_hyperplane toBarycentric fmax fmin s2_init t_init
          fuel r s = none)
      ∧ (∀ d : Simplex 2 2 ℚ,
          build_face d ![![0, 0], ![1, 0], ![0, 1]] 0 = ![![1, 0], d 1]
            ∧ build_face d ![![0, 0], ![1, 0], ![0, 1]] 1 = ![![0, 0], d 1]) := by
  refine ⟨fun K _ n mk_hyperplane toBarycentric fmax fmin s2_init t_init fuel r s =>
    collide_ray_simplex_full_none mk_hyperplane toBarycentric fmax fmin s2_init t_init
      fuel r s, fun d => ?_⟩
  have h2 : List.finRange 2 = [0, 1] := rfl
  constructor
  · funext k
    fin_cases k <;> simp [build_face, h2, Function.update]
  · funext k
    fin_cases k <;> simp [build_face, h2, Function.update]

/-- C8 (code defect): `collide(ray, simplex<vcl, vcl>, t_out)` returns nothing for
any amount of fuel: the call `collide(h, r, t_out)` it starts with is the
hyperplane-first form, which calls itself. -/
theorem collide_ray_simplex_diverges {K : Type} [LinearOrderedField K] {n : Nat}
    (mk_hyperplane : Simplex n n K → Hyperplane n K)
    (toBarycentric : Simplex n n K → Vec n K → Vec n K)
    (fuel : Nat) (r : Ray n K) (s : Simplex n n K) (t_out : K) :
    collide_ray_simplex mk_hyperplane toBarycentric fuel r s t_out = none
      ∧ collide_simplex_ray mk_hyperplane toBarycentric fuel s r t_out = none :=
  ⟨collide_ray_simplex_none mk_hyperplane toBarycentric fuel r s t_out,
    collide_ray_simplex_none mk_hyperplane toBarycentric fuel r s t_out⟩

/-- Once the loop of `collide(vec, simplex)` has returned false it stays so. -/
theorem collide_point_simplex_step_none {K : Type} [LinearOrderedField K] {m : Nat}
    (b : Vec m K) (l : List (Fin m)) :
    l.foldl (collide_point_simplex_step b) none = none := by
  induction l with
  | nil => rfl
  | cons i l ih => simpa [List.foldl_cons, collide_point_simplex_step] using ih

/-- When every coordinate visited passes both tests, the loop ends with the start
value minus the coordinates visited. -/
theorem collide_point_simplex_loop_some {K : Type} [LinearOrderedField K] {m : Nat}
    (b : Vec m K) (l : List (Fin m)) (c : K)
    (hok : ∀ i ∈ l, ¬ (1 - b i < -eps) ∧ ¬ (b i < -eps)) :
    l.foldl (collide_point_simplex_step b) (some c) = some (c - (l.map b).sum) := by
  induction l generalizing c with
  | nil => simp
  | cons i l ih =>
    have hi := hok i (List.mem_cons_self i l)
    have hstep : collide_point_simplex_step b (some c) i = some (c - b i) := by
      simp only [collide_point_simplex_step]
      rw [if_neg hi.1, if_neg hi.2]
    rw [List.foldl_cons, hstep, ih (c - b i) (fun j hj => hok j (List.mem_cons_of_mem i hj))]
    simp only [List.map_cons, List.sum_cons]
    congr 1
    ring

/-- When some coordinate visited fails a test, the loop returns false. -/
theorem collide_point_simplex_loop_none {K : Type} [LinearOrderedField K] {m : Nat}
    (b : Vec m K) (l : List (Fin m)) (c : K)
    (hbad : ∃ i ∈ l, ¬ (¬ (1 - b i < -eps) ∧ ¬ (b i < -eps))) :
    l.foldl (collide_point_simplex_step b) (some c) = none := by
  induction l generalizing c with
  | nil =>
    obtain ⟨i, hi, _⟩ := hbad
    simp at hi
  | cons j l ih =>
    rw [List.foldl_cons]
    by_cases hj : ¬ (1 - b j < -eps) ∧ ¬ (b j < -eps)
    · have hstep : collide_point_simplex_step b (some c) j = some (c - b j) := by
        simp only [collide_point_simplex_step]
        rw [if_neg hj.1, if_neg hj.2]
      rw [hstep]
      apply ih
      obtain ⟨i, hi, hbi⟩ := hbad
      rcases List.mem_cons.mp hi with h | h
      · rw [h] at hbi
        exact absurd hj hbi
      · exact ⟨i, h, hbi⟩
    · have hstep : collide_point_simplex_step b (some c) j = none := by
        simp only [collide_point_simplex_step]
        by_cases h1 : 1 - b j < -eps
        · rw [if_pos h1]
        · rw [if_neg h1]
          have h2 : b j < -eps := by
            by_contra h2
            exact hj ⟨h1, h2⟩
          rw [if_pos h2]
      rw [hstep, collide_point_simplex_step_none]

/-- The point-in-simplex test, for any conversion functions: true exactly when
every reduced coordinate and the implied final coordinate lie in
`[-1e-6, 1 + 1e-6]` and the squared round-trip distance is below `1e-6`. -/
theorem collide_point_simplex_iff {K : Type} [LinearOrderedField K] {n m : Nat}
    (toBarycentric_reduced : Simplex n (m + 1) K → Vec n K → Vec m K)
    (toWorld : Simplex n (m + 1) K → Vec m K → Vec n K)
    (p : Vec n K) (s : Simplex n (m + 1) K) :
    collide_point_simplex toBarycentric_reduced toWorld p s = true ↔
      (∀ i, -eps ≤ toBarycentric_reduced s p i ∧ toBarycentric_reduced s p i ≤ 1 + eps)
        ∧ (-eps ≤ 1 - ∑ i, toBarycentric_reduced s p i
            ∧ 1 - ∑ i, toBarycentric_reduced s p i ≤ 1 + eps)
        ∧ glm_distance2 (toWorld s (toBarycentric_reduced s p)) p < eps := by
  set b : Vec m K := toBarycentric_reduced s p with hb
  have hsum : ((List.finRange m).map b).sum = ∑ i, b i := by
    rw [Fin.sum_univ_def]
  by_cases hall : ∀ i ∈ List.finRange m, ¬ (1 - b i < -eps) ∧ ¬ (b i < -eps)
  · have hloop := collide_point_simplex_loop_some b (List.finRange m) 1 hall
    rw [hsum] at hloop
    have hres : collide_point_simplex toBarycentric_reduced toWorld p s
        = if 1 - (1 - ∑ i, b i) < -eps then false
          else if 1 - ∑ i, b i < -eps then false
          else decide (glm_distance2 (toWorld s b) p < eps) := by
      simp only [collide_point_simplex, ← hb, hloop]
    rw [hres]
    have hcoords : ∀ i, -eps ≤ b i ∧ b i ≤ 1 + eps := by
      intro i
      have := hall i (List.mem_finRange i)
      constructor
      · exact not_lt.mp this.2
      · have h1 := not_lt.mp this.1
        linarith
    by_cases h1 : 1 - (1 - ∑ i, b i) < -eps
    · rw [if_pos h1]
      constructor
      · intro h
        simp at h
      · rintro ⟨_, ⟨_, h2⟩, _⟩
        linarith
    · rw [if_neg h1]
      by_cases h2 : 1 - ∑ i, b i < -eps
      · rw [if_pos h2]
        constructor
        · intro h
          simp at h
        · rintro ⟨_, ⟨h3, _⟩, _⟩
          linarith
      · rw [if_neg h2, decide_eq_true_eq]
        constructor
        · intro h
          refine ⟨hcoords, ⟨not_lt.mp h2, ?_⟩, h⟩
          have := not_lt.mp h1
          linarith
        · rintro ⟨_, _, h⟩
          exact h
  · have hbad : ∃ i ∈ List.finRange m, ¬ (¬ (1 - b i < -eps) ∧ ¬ (b i < -eps)) := by
      by_contra hcon
      apply hall
      intro i hi
      by_contra hi2
      exact hcon ⟨i, hi, hi2⟩
    have hloop := collide_point_simplex_loop_none b (List.finRange m) 1 hbad
    have hres : collide_point_simplex toBarycentric_reduced toWorld p s = false := by
      simp only [collide_point_simplex, ← hb, hloop]
    rw [hres]
    constructor
    · intro h
      simp at h
    · rintro ⟨hc, _, _⟩
      exfalso
      obtain ⟨i, _, hi⟩ := hbad
      apply hi
      have := hc i
      constructor
      · exact not_lt.mpr (by linarith [this.2])
      · exact not_lt.mpr this.1

/-- C9 (as stated, refuted): for the triangle `(0,0), (1,0), (0,1)` and the point
`p = (1/4, -1/2000000)` the test answers true although the implied final
coordinate, `1` minus the sum of the reduced coordinates, is `-1/2000000`,
below `0`. -/
theorem collide_point_simplex_accepts_negative_coordinate :
    collide_point_simplex (K := ℚ) triangle_toBarycentric_reduced simplex_toWorld
        ![1 / 4, -1 / 2000000] unit_triangle = true
      ∧ 1 - ∑ i, triangle_toBarycentric_reduced (K := ℚ) unit_triangle
          ![1 / 4, -1 / 2000000] i < 0 := by
  have h2 : List.finRange 2 = [0, 1] := rfl
  have hl : Fin.last 2 = (2 : Fin 3) := rfl
  constructor
  · norm_num [collide_point_simplex, collide_point_simplex_step, h2, hl,
      triangle_toBarycentric_reduced, simplex_toWorld, unit_triangle, glm_distance2,
      length2, dot, eps, Fin.sum_univ_succ]
  · norm_num [triangle_toBarycentric_reduced, unit_triangle, Fin.sum_univ_succ]

/-- C9 (amended): with `toBarycentric_reduced` and `toWorld` the conversion
functions of the simplex, `collide(p, s)` is true only if (indeed iff) every
reduced barycentric coordinate of `p` and the implied final coordinate lie in
`[-1e-6, 1 + 1e-6]` and the squared distance between
`toWorld(toBarycentric_reduced(p))` and `p` is below `1e-6`.  For the triangle
`(0,0), (1,0), (0,1)`, `p = (0.25, 0.25)` gives true and `p = (0.6, 0.6)` gives
false. -/
theorem collide_point_simplex_tolerant :
    (∀ (K : Type) [LinearOrderedField K] (n m : Nat)
        (toBarycentric_reduced : Simplex n (m + 1) K → Vec n K → Vec m K)
        (toWorld : Simplex n (m + 1) K → Vec m K → Vec n K)
        (p : Vec n K) (s : Simplex n (m + 1) K),
        collide_point_simplex toBarycentric_reduced toWorld p s = true ↔
          (∀ i, -eps ≤ toBarycentric_reduced s p i
              ∧ toBarycentric_reduced s p i ≤ 1 + eps)
            ∧ (-eps ≤ 1 - ∑ i, toBarycentric_reduced s p i
                ∧ 1 - ∑ i, toBarycentric_reduced s p i ≤ 1 + eps)
            ∧ glm_distance2 (toWorld s (toBarycentric_reduced s p)) p < eps)
      ∧ collide_point_simplex (K := ℚ) triangle_toBarycentric_reduced simplex_toWorld
          ![1 / 4, 1 / 4] unit_triangle = true
      ∧ collide_point_simplex (K := ℚ) triangle_toBarycentric_reduced simplex_toWorld
          ![3 / 5, 3 / 5] unit_triangle = false := by
  have h2 : List.finRange 2 = [0, 1] := rfl
  have hl : Fin.last 2 = (2 : Fin 3) := rfl
  refine ⟨fun K _ n m toBarycentric_reduced toWorld p s =>
    collide_point_simplex_iff toBarycentric_reduced toWorld p s, ?_, ?_⟩
  · norm_num [collide_point_simplex, collide_point_simplex_step, h2, hl,
      triangle_toBarycentric_reduced, simplex_toWorld, unit_triangle, glm_distance2,
      length2, dot, eps, Fin.sum_univ_succ]
  · norm_num [collide_point_simplex, collide_point_simplex_step, h2, hl,
      triangle_toBarycentric_reduced, simplex_toWorld, unit_triangle, glm_distance2,
      length2, dot, eps, Fin.sum_univ_succ]

/-- The box-box test is true exactly when no axis separates the boxes. -/
theorem collide_bounds_bounds_iff {K : Type} [LinearOrderedField K] {n : Nat}
    (b b2 : Bounds n K) :
    collide_bounds_bounds b b2 = true ↔
      ∀ i, b2.min i ≤ b.max i ∧ b.min i ≤ b2.max i := by
  unfold collide_bounds_bounds
  rw [List.all_eq_true]
  constructor
  · intro h i
    have hi := h i (List.mem_finRange i)
    simp only [Bool.not_eq_true', Bool.or_eq_false_iff, decide_eq_false_iff_not,
      not_lt] at hi
    exact hi
  · intro h i _
    simp only [Bool.not_eq_true', Bool.or_eq_false_iff, decide_eq_false_iff_not, not_lt]
    exact h i

/-- The point-in-box test is true exactly when the point is within the bounds on
every axis. -/
theorem collide_point_bounds_iff {K : Type} [LinearOrderedField K] {n : Nat}
    (p : Vec n K) (b : Bounds n K) :
    collide_point_bounds p b = true ↔ ∀ i, b.min i ≤ p i ∧ p i ≤ b.max i := by
  unfold collide_point_bounds
  rw [List.all_eq_true]
  constructor
  · intro h i
    have hi := h i (List.mem_finRange i)
    simp only [Bool.not_eq_true', Bool.or_eq_false_iff, decide_eq_false_iff_not,
      not_lt] at hi
    exact ⟨hi.2, hi.1⟩
  · intro h i _
    simp only [Bool.not_eq_true', Bool.or_eq_false_iff, decide_eq_false_iff_not, not_lt]
    exact ⟨(h i).2, (h i).1⟩

/-- C11: `collide(b, b2)` is true iff on every axis the intervals
`[b.min[i], b.max[i]]` and `[b2.min[i], b2.max[i]]` overlap inclusively, that is
no axis has `b.max[i] < b2.min[i]` or `b2.max[i] < b.min[i]`.  The boxes
`{(0,0),(1,1)}` and `{(1,1),(2,2)}` collide (touching corner);
`{(0,0),(1,1)}` and `{(1.0001,1.0001),(2,2)}` do not. -/
theorem collide_bounds_bounds_overlap :
    (∀ (K : Type) [LinearOrderedField K] (n : Nat) (b b2 : Bounds n K),
        (collide_bounds_bounds b b2 = true ↔
          ∀ i, ¬ (b.max i < b2.min i ∨ b2.max i < b.min i))
        ∧ (collide_bounds_bounds b b2 = true ↔
          ∀ i, b2.min i ≤ b.max i ∧ b.min i ≤ b2.max i))
      ∧ collide_bounds_bounds (K := ℚ) ⟨![0, 0], ![1, 1]⟩ ⟨![1, 1], ![2, 2]⟩ = true
      ∧ collide_bounds_bounds (K := ℚ) ⟨![0, 0], ![1, 1]⟩
          ⟨![10001 / 10000, 10001 / 10000], ![2, 2]⟩ = false := by
  have h2 : List.finRange 2 = [0, 1] := rfl
  refine ⟨fun K _ n b b2 => ⟨?_, collide_bounds_bounds_iff b b2⟩, ?_, ?_⟩
  · rw [collide_bounds_bounds_iff]
    constructor
    · intro h i
      rw [not_or, not_lt, not_lt]
      exact h i
    · intro h i
      have := h i
      rw [not_or, not_lt, not_lt] at this
      exact this
  · norm_num [collide_bounds_bounds, h2]
  · norm_num [collide_bounds_bounds, h2]

/-- The loop of `distance2(bounds, vec)` adds the per-axis excess of every axis
it visits to the start value. -/
theorem distance2_fold {K : Type} [LinearOrderedField K] {n : Nat}
    (b : Bounds n K) (p : Vec n K) (l : List (Fin n)) (c : K) :
    l.foldl (distance2_step b p) c = c + (l.map (axis_excess2 b p)).sum := by
  induction l generalizing c with
  | nil => simp
  | cons i l ih =>
    rw [List.foldl_cons, ih, List.map_cons, List.sum_cons]
    have hstep : distance2_step b p c i = c + axis_excess2 b p i := by
      unfold distance2_step axis_excess2
      by_cases h1 : p i < b.min i <;> by_cases h2 : p i > b.max i <;>
        simp only [h1, h2, if_true, if_false] <;> ring
    rw [hstep]
    ring

/-- The function `distance2(bounds, vec)` computes the sum of the per-axis
excesses. -/
theorem distance2_eq_spec {K : Type} [LinearOrderedField K] {n : Nat}
    (b : Bounds n K) (p : Vec n K) : distance2 b p = box_distance2_spec b p := by
  unfold distance2 box_distance2_spec
  rw [distance2_fold, zero_add, Fin.sum_univ_def]

/-- Each per-axis excess is non-negative. -/
theorem axis_excess2_nonneg {K : Type} [LinearOrderedField K] {n : Nat}
    (b : Bounds n K) (p : Vec n K) (i : Fin n) : 0 ≤ axis_excess2 b p i := by
  unfold axis_excess2
  apply add_nonneg
  · split
    · exact sq_nonneg _
    · exact le_refl 0
  · split
    · exact sq_nonneg _
    · exact le_refl 0

/-- The per-axis excess vanishes exactly when the coordinate is within bounds. -/
theorem axis_excess2_eq_zero_iff {K : Type} [LinearOrderedField K] {n : Nat}
    (b : Bounds n K) (p : Vec n K) (i : Fin n) :
    axis_excess2 b p i = 0 ↔ b.min i ≤ p i ∧ p i ≤ b.max i := by
  unfold axis_excess2
  by_cases h1 : p i < b.min i
  · have hpos : 0 < (b.min i - p i) ^ 2 := by
      apply sq_pos_of_pos
      linarith
    have hnn : 0 ≤ (if p i > b.max i then (p i - b.max i) ^ 2 else 0) := by
      split
      · exact sq_nonneg _
      · exact le_refl 0
    rw [if_pos h1]
    constructor
    · intro h
      linarith
    · intro h
      exact absurd h.1 (not_le.mpr h1)
  · rw [if_neg h1, zero_add]
    by_cases h2 : p i > b.max i
    · have hpos : 0 < (p i - b.max i) ^ 2 := by
        apply sq_pos_of_pos
        linarith
      rw [if_pos h2]
      constructor
      · intro h
        linarith
      · intro h
        exact absurd h.2 (not_le.mpr h2)
    · rw [if_neg h2]
      exact ⟨fun _ => ⟨not_lt.mp h1, not_lt.mp h2⟩, fun _ => rfl⟩

/-- The distance to the box is non-negative. -/
theorem distance2_nonneg {K : Type} [LinearOrderedField K] {n : Nat}
    (b : Bounds n K) (p : Vec n K) : 0 ≤ distance2 b p := by
  rw [distance2_eq_spec]
  exact Finset.sum_nonneg (fun i _ => axis_excess2_nonneg b p i)

/-- The distance to the box is zero exactly for the points the point-in-box test
accepts. -/
theorem distance2_eq_zero_iff {K : Type} [LinearOrderedField K] {n : Nat}
    (b : Bounds n K) (p : Vec n K) :
    distance2 b p = 0 ↔ collide_point_bounds p b = true := by
  rw [distance2_eq_spec, collide_point_bounds_iff]
  unfold box_distance2_spec
  rw [Finset.sum_eq_zero_iff_of_nonneg (fun i _ => axis_excess2_nonneg b p i)]
  constructor
  · intro h i
    exact (axis_excess2_eq_zero_iff b p i).mp (h i (Finset.mem_univ i))
  · intro h i _
    exact (axis_excess2_eq_zero_iff b p i).mpr (h i)

/-- The tolerance `1e-6` is positive. -/
theorem eps_pos {K : Type} [LinearOrderedField K] : (0 : K) < eps := by
  unfold eps
  norm_num

/-- C12 (amended): in exact arithmetic (any ordered field, nothing rounded),
`collide(r, r2)` is true iff the squared distance between the centres exceeds
the squared sum of the radii by less than `1e-6`; so it is true whenever
the squared distance is `<=` the squared sum (tangent balls included), and
whenever it is true the squared distance is below the squared sum plus `1e-6`.
Centres `(0,0,0)` and `(3,0,0)` with radii `1` and `2` (distance^2 = 9 =
combined-radius^2) give true. -/
theorem collide_radial_radial_squared :
    (∀ (K : Type) [LinearOrderedField K] (n : Nat) (r r2 : Radial n K),
        (collide_radial_radial r r2 = true ↔
          glm_distance2 r.center r2.center - (r.radius + r2.radius) ^ 2 < eps)
        ∧ (glm_distance2 r.center r2.center ≤ (r.radius + r2.radius) ^ 2 →
          collide_radial_radial r r2 = true)
        ∧ (collide_radial_radial r r2 = true →
          glm_distance2 r.center r2.center < (r.radius + r2.radius) ^ 2 + eps))
      ∧ collide_radial_radial (K := ℚ) ⟨![0, 0, 0], 1⟩ ⟨![3, 0, 0], 2⟩ = true
      ∧ glm_distance2 (K := ℚ) ![0, 0, 0] ![3, 0, 0] = 9
      ∧ ((1 : ℚ) + 2) ^ 2 = 9 := by
  refine ⟨fun K _ n r r2 => ?_, ?_, ?_, ?_⟩
  · have hiff : collide_radial_radial r r2 = true ↔
        glm_distance2 r.center r2.center - (r.radius + r2.radius) ^ 2 < eps := by
      unfold collide_radial_radial
      rw [decide_eq_true_eq, sq]
    refine ⟨hiff, fun hle => hiff.mpr ?_, fun htrue => ?_⟩
    · have := eps_pos (K := K)
      linarith
    · have := hiff.mp htrue
      linarith
  · norm_num [collide_radial_radial, glm_distance2, length2, dot, eps, Fin.sum_univ_succ]
  · norm_num [glm_distance2, length2, dot, Fin.sum_univ_succ]
  · norm_num

/-- C13 (amended): in exact arithmetic (any ordered field, nothing rounded),
`collide(b, r)` is true iff the squared distance from `r.center` to the box
exceeds `r.radius^2` by less than `1e-6`, where that squared distance is the
sum over the axes of the squared amount by which the centre lies below
`b.min[i]` or above `b.max[i]`, and is zero when the centre is inside the box.  So
it is true whenever the squared distance is `<= r.radius^2`, and whenever it is
true the squared distance is below `r.radius^2 + 1e-6`. -/
theorem collide_bounds_radial_squared {K : Type} [LinearOrderedField K] {n : Nat}
    (b : Bounds n K) (r : Radial n K) :
    (collide_bounds_radial b r = true ↔ distance2 b r.center - r.radius ^ 2 < eps)
      ∧ distance2 b r.center = ∑ i, axis_excess2 b r.center i
      ∧ (collide_point_bounds r.center b = true → distance2 b r.center = 0)
      ∧ (distance2 b r.center ≤ r.radius ^ 2 → collide_bounds_radial b r = true)
      ∧ (collide_bounds_radial b r = true → distance2 b r.center < r.radius ^ 2 + eps) := by
  have hiff : collide_bounds_radial b r = true ↔
      distance2 b r.center - r.radius ^ 2 < eps := by
    unfold collide_bounds_radial
    rw [decide_eq_true_eq, sq]
  refine ⟨hiff, distance2_eq_spec b r.center, (distance2_eq_zero_iff b r.center).mpr,
    fun hle => hiff.mpr ?_, fun htrue => ?_⟩
  · have := eps_pos (K := K)
    linarith
  · have := hiff.mp htrue
    linarith

/-- C13 (amended) at a concrete input: the centre `(2, 1/2)` is outside the box
`[0,1] x [0,1]` at squared distance `1`, within the squared radius `1`. -/
theorem collide_bounds_radial_squared_witness :
    collide_bounds_radial (K := ℚ) ⟨![0, 0], ![1, 1]⟩ ⟨![2, 1 / 2], 1⟩ = true :=
  (collide_bounds_radial_squared (K := ℚ) ⟨![0, 0], ![1, 1]⟩ ⟨![2, 1 / 2], 1⟩).2.2.2.1
    (by
      have h2 : List.finRange 2 = [0, 1] := rfl
      norm_num [distance2, distance2_step, h2])

/-- The rational square root of `1` is `1`. -/
theorem qsqrt_one : qsqrt 1 = 1 := by
  have h1 : Nat.sqrt 1 = 1 := Nat.sqrt_eq 1
  have hn : ((1 : ℚ).num).toNat = 1 := rfl
  have hd : (1 : ℚ).den = 1 := rfl
  rw [qsqrt, hn, hd, h1]
  norm_num

/-- C15 (code defect): for the plane through `(0,0)` with unit normal `(0,1)` and
the ball of radius `1` centred at `(0,-5)`, the signed distance of the centre is
`-5`, farther than the radius, and `collide(h, r)` answers true: the test bounds
the signed distance from above only. -/
theorem collide_hyperplane_radial_one_sided :
    collide_hyperplane_radial qsqrt ⟨![0, 0], ![0, 1]⟩ ⟨![0, -5], 1⟩ = true
      ∧ dot (normalize qsqrt (⟨![0, 0], ![0, 1]⟩ : Hyperplane 2 ℚ).normal)
          ((⟨![0, -5], 1⟩ : Radial 2 ℚ).center - (⟨![0, 0], ![0, 1]⟩ : Hyperplane 2 ℚ).origin)
          = -5
      ∧ ¬ |dot (normalize qsqrt (⟨![0, 0], ![0, 1]⟩ : Hyperplane 2 ℚ).normal)
            ((⟨![0, -5], 1⟩ : Radial 2 ℚ).center
              - (⟨![0, 0], ![0, 1]⟩ : Hyperplane 2 ℚ).origin)|
          ≤ (⟨![0, -5], 1⟩ : Radial 2 ℚ).radius := by
  have hdot : dot (normalize qsqrt (⟨![0, 0], ![0, 1]⟩ : Hyperplane 2 ℚ).normal)
      ((⟨![0, -5], 1⟩ : Radial 2 ℚ).center - (⟨![0, 0], ![0, 1]⟩ : Hyperplane 2 ℚ).origin)
      = -5 := by
    norm_num [normalize, dot, Fin.sum_univ_succ, qsqrt_one]
  refine ⟨?_, hdot, ?_⟩
  · unfold collide_hyperplane_radial
    rw [hdot]
    norm_num
  · rw [hdot]
    norm_num

/-- The squared distance between two points does not depend on their order. -/
theorem glm_distance2_comm {K : Type} [LinearOrderedField K] {n : Nat} (a b : Vec n K) :
    glm_distance2 a b = glm_distance2 b a := by
  unfold glm_distance2 length2 dot
  exact Finset.sum_congr rfl (fun i _ => by simp only [Pi.sub_apply]; ring)

/-- C16: every reversed boolean form returns what the canonical form returns
(bounds x radial, point x radial, point x bounds, point x simplex, point x
hyperplane, hyperplane x bounds, hyperplane x radial), and `collide(radial,
radial)` and `collide(bounds, bounds)` are unchanged by swapping their two
arguments. -/
theorem collide_symmetric {K : Type} [LinearOrderedField K] {n m : Nat}
    (sqrt : K → K)
    (toBarycentric_reduced : Simplex n (m + 1) K → Vec n K → Vec m K)
    (toWorld : Simplex n (m + 1) K → Vec m K → Vec n K)
    (p : Vec n K) (b b2 : Bounds n K) (r r2 : Radial n K) (h : Hyperplane n K)
    (s : Simplex n (m + 1) K) :
    collide_radial_bounds r b = collide_bounds_radial b r
      ∧ collide_radial_point r p = collide_point_radial p r
      ∧ collide_bounds_point b p = collide_point_bounds p b
      ∧ collide_simplex_point toBarycentric_reduced toWorld s p
          = collide_point_simplex toBarycentric_reduced toWorld p s
      ∧ collide_hyperplane_point h p = collide_point_hyperplane p h
      ∧ collide_bounds_hyperplane b h = collide_hyperplane_bounds h b
      ∧ collide_radial_hyperplane sqrt r h = collide_hyperplane_radial sqrt h r
      ∧ collide_radial_radial r r2 = collide_radial_radial r2 r
      ∧ collide_bounds_bounds b b2 = collide_bounds_bounds b2 b := by
  refine ⟨rfl, rfl, rfl, rfl, rfl, rfl, rfl, ?_, ?_⟩
  · unfold collide_radial_radial
    rw [glm_distance2_comm r.center r2.center, add_comm r.radius r2.radius]
  · rw [Bool.eq_iff_iff, collide_bounds_bounds_iff, collide_bounds_bounds_iff]
    constructor
    · intro hh i
      exact ⟨(hh i).2, (hh i).1⟩
    · intro hh i
      exact ⟨(hh i).2, (hh i).1⟩

/-- On finite scalars `glm::min` is the minimum. -/
theorem gmin_eq_min {K : Type} [LinearOrderedField K] (x y : K) : gmin x y = min x y := by
  unfold gmin
  by_cases h : y < x
  · rw [if_pos h, min_eq_right (le_of_lt h)]
  · rw [if_neg h, min_eq_left (not_lt.mp h)]

/-- On finite scalars `glm::max` is the maximum. -/
theorem gmax_eq_max {K : Type} [LinearOrderedField K] (x y : K) : gmax x y = max x y := by
  unfold gmax
  by_cases h : x < y
  · rw [if_pos h, max_eq_right (le_of_lt h)]
  · rw [if_neg h, max_eq_left (not_lt.mp h)]

/-- Once the interval is that of axis 0, an iteration of the slab loop leaves it
as it is, whichever axis it visits. -/
theorem collide_ray_bounds_step_fixed {K : Type} [LinearOrderedField K] {n : Nat}
    (r : Ray (n + 1) K) (b : Bounds (n + 1) K) (i : Fin (n + 1)) :
    collide_ray_bounds_step r b
        (Ext.fin (gmin ((b.min 0 - r.origin 0) / r.direction 0)
            ((b.max 0 - r.origin 0) / r.direction 0)),
          Ext.fin (gmax ((b.min 0 - r.origin 0) / r.direction 0)
            ((b.max 0 - r.origin 0) / r.direction 0))) i
      = (Ext.fin (gmin ((b.min 0 - r.origin 0) / r.direction 0)
            ((b.max 0 - r.origin 0) / r.direction 0)),
          Ext.fin (gmax ((b.min 0 - r.origin 0) / r.direction 0)
            ((b.max 0 - r.origin 0) / r.direction 0))) := by
  unfold collide_ray_bounds_step
  by_cases hi : r.direction i ≠ 0
  · rw [if_pos hi]
    simp only [Fin.mk_zero, Ext.gmax, Ext.gmin, Ext.lt, lt_self_iff_false, decide_False,
      Bool.false_eq_true, if_false]
  · rw [if_neg hi]

/-- The slab loop keeps the interval of axis 0 over any list of axes. -/
theorem collide_ray_bounds_fold_fixed {K : Type} [LinearOrderedField K] {n : Nat}
    (r : Ray (n + 1) K) (b : Bounds (n + 1) K) (l : List (Fin (n + 1))) :
    l.foldl (collide_ray_bounds_step r b)
        (Ext.fin (gmin ((b.min 0 - r.origin 0) / r.direction 0)
            ((b.max 0 - r.origin 0) / r.direction 0)),
          Ext.fin (gmax ((b.min 0 - r.origin 0) / r.direction 0)
            ((b.max 0 - r.origin 0) / r.direction 0)))
      = (Ext.fin (gmin ((b.min 0 - r.origin 0) / r.direction 0)
            ((b.max 0 - r.origin 0) / r.direction 0)),
          Ext.fin (gmax ((b.min 0 - r.origin 0) / r.direction 0)
            ((b.max 0 - r.origin 0) / r.direction 0))) := by
  induction l with
  | nil => rfl
  | cons i l ih => rw [List.foldl_cons, collide_ray_bounds_step_fixed, ih]

/-- C18: the slab test as written uses axis 0 throughout.  For every ray with
`r.direction[0] != 0` and every box, whatever the other axes hold,
`collide(r, b, tmin_out, tmax_out)` returns true with `tmin_out = min(t1, t2)` and
`tmax_out = max(t1, t2)`, where `t1 = (b.min[0] - r.origin[0]) / r.direction[0]`
and `t2 = (b.max[0] - r.origin[0]) / r.direction[0]`. -/
theorem collide_ray_bounds_single_axis {K : Type} [LinearOrderedField K] {n : Nat}
    (r : Ray (n + 1) K) (b : Bounds (n + 1) K) (hd : r.direction 0 ≠ 0) :
    collide_ray_bounds r b
      = (true,
          Ext.fin (min ((b.min 0 - r.origin 0) / r.direction 0)
            ((b.max 0 - r.origin 0) / r.direction 0)),
          Ext.fin (max ((b.min 0 - r.origin 0) / r.direction 0)
            ((b.max 0 - r.origin 0) / r.direction 0))) := by
  have hfirst : collide_ray_bounds_step r b (Ext.negInf, Ext.posInf) 0
      = (Ext.fin (gmin ((b.min 0 - r.origin 0) / r.direction 0)
            ((b.max 0 - r.origin 0) / r.direction 0)),
          Ext.fin (gmax ((b.min 0 - r.origin 0) / r.direction 0)
            ((b.max 0 - r.origin 0) / r.direction 0))) := by
    unfold collide_ray_bounds_step
    rw [if_pos hd]
    simp only [Fin.mk_zero, Ext.gmax, Ext.gmin, Ext.lt, if_true]
  unfold collide_ray_bounds
  rw [List.finRange_succ_eq_map, List.foldl_cons, hfirst, collide_ray_bounds_fold_fixed]
  simp only [Ext.ge, gmin_eq_min, gmax_eq_max, min_le_iff, le_max_iff, le_refl, true_or,
    or_true, decide_True]

/-- C18 at a concrete input: the ray from `(0,0)` along `(1,1)` and the box
`[0,1] x [5,6]`, which the ray misses: the answer is true with the interval
`[0, 1]` of axis 0. -/
theorem collide_ray_bounds_single_axis_witness :
    collide_ray_bounds (K := ℚ) ⟨![0, 0], ![1, 1]⟩ ⟨![0, 5], ![1, 6]⟩
      = (true,
          Ext.fin (min ((0 - 0) / 1) ((1 - 0) / 1)),
          Ext.fin (max ((0 - 0) / 1) ((1 - 0) / 1))) :=
  collide_ray_bounds_single_axis (K := ℚ) (n := 1) ⟨![0, 0], ![1, 1]⟩ ⟨![0, 5], ![1, 6]⟩
    (by norm_num)

/-- On each axis the excess of `p` is at most its squared distance to any
coordinate within the bounds. -/
theorem axis_excess2_le {K : Type} [LinearOrderedField K] {n : Nat}
    (b : Bounds n K) (p q : Vec n K) (i : Fin n)
    (hq : b.min i ≤ q i ∧ q i ≤ b.max i) :
    axis_excess2 b p i ≤ (q i - p i) * (q i - p i) := by
  unfold axis_excess2
  by_cases h1 : p i < b.min i
  · have h2 : ¬ p i > b.max i := by
      intro h2
      linarith [hq.1, hq.2]
    rw [if_pos h1, if_neg h2, add_zero]
    nlinarith [hq.1, hq.2]
  · rw [if_neg h1, zero_add]
    by_cases h2 : p i > b.max i
    · rw [if_pos h2]
      nlinarith [hq.1, hq.2]
    · rw [if_neg h2]
      exact mul_self_nonneg _

/-- On each axis the clamped point is at squared distance the excess. -/
theorem axis_excess2_clamp {K : Type} [LinearOrderedField K] {n : Nat}
    (b : Bounds n K) (p : Vec n K) (i : Fin n) (hb : b.min i ≤ b.max i) :
    (clamp_into b p i - p i) * (clamp_into b p i - p i) = axis_excess2 b p i := by
  unfold axis_excess2 clamp_into
  by_cases h1 : p i < b.min i
  · have h2 : ¬ p i > b.max i := by
      intro h2
      linarith
    rw [if_pos h1, if_pos h1, if_neg h2]
    ring
  · rw [if_neg h1, if_neg h1]
    by_cases h2 : p i > b.max i
    · rw [if_pos h2, if_pos h2]
      ring
    · rw [if_neg h2, if_neg h2]
      ring

/-- C19 (amended): in exact arithmetic (any ordered field, nothing rounded), for a
box with `b.min[i] <= b.max[i]` on all axes, `distance2(b, p)` is the minimum
squared distance from `p` to the box: it is at most `|p - q|^2` for
every `q` that `collide(q, b)` accepts, and the clamp of `p` into the box is
accepted and is at exactly that squared distance.  Moreover
`distance2(b, p) >= 0`, and `distance2(b, p) = 0` iff `collide(p, b)` is true. -/
theorem distance2_is_minimum {K : Type} [LinearOrderedField K] {n : Nat}
    (b : Bounds n K) (p : Vec n K) (hb : ∀ i, b.min i ≤ b.max i) :
    (∀ q : Vec n K, collide_point_bounds q b = true → distance2 b p ≤ glm_distance2 p q)
      ∧ collide_point_bounds (clamp_into b p) b = true
      ∧ glm_distance2 p (clamp_into b p) = distance2 b p
      ∧ 0 ≤ distance2 b p
      ∧ (distance2 b p = 0 ↔ collide_point_bounds p b = true) := by
  refine ⟨fun q hq => ?_, ?_, ?_, distance2_nonneg b p, distance2_eq_zero_iff b p⟩
  · rw [distance2_eq_spec]
    unfold box_distance2_spec glm_distance2 length2 dot
    apply Finset.sum_le_sum
    intro i _
    simp only [Pi.sub_apply]
    exact axis_excess2_le b p q i ((collide_point_bounds_iff q b).mp hq i)
  · rw [collide_point_bounds_iff]
    intro i
    unfold clamp_into
    by_cases h1 : p i < b.min i
    · rw [if_pos h1]
      exact ⟨le_refl _, hb i⟩
    · rw [if_neg h1]
      by_cases h2 : p i > b.max i
      · rw [if_pos h2]
        exact ⟨hb i, le_refl _⟩
      · rw [if_neg h2]
        exact ⟨not_lt.mp h1, not_lt.mp h2⟩
  · rw [distance2_eq_spec]
    unfold box_distance2_spec glm_distance2 length2 dot
    apply Finset.sum_congr rfl
    intro i _
    simp only [Pi.sub_apply]
    exact axis_excess2_clamp b p i (hb i)

/-- C19 (amended) at a concrete input: the box `[0,1] x [0,1]` and the point `(2, 3)`, whose
clamp is the corner `(1, 1)` at squared distance `5`. -/
theorem distance2_is_minimum_witness :
    glm_distance2 (K := ℚ) ![2, 3] (clamp_into ⟨![0, 0], ![1, 1]⟩ ![2, 3])
      = distance2 ⟨![0, 0], ![1, 1]⟩ ![2, 3] :=
  (distance2_is_minimum (K := ℚ) ⟨![0, 0], ![1, 1]⟩ ![2, 3]
    (by
      intro i
      fin_cases i <;> simp)).2.2.1

/-- C20: for boxes with `min[i] <= max[i]` on every axis, `collide(b, b2)` is true
iff some point `p` has `collide(p, b)` and `collide(p, b2)` both true. -/
theorem collide_bounds_bounds_iff_common_point {K : Type} [LinearOrderedField K]
    {n : Nat} (b b2 : Bounds n K) (hb : ∀ i, b.min i ≤ b.max i)
    (hb2 : ∀ i, b2.min i ≤ b2.max i) :
    collide_bounds_bounds b b2 = true ↔
      ∃ p : Vec n K, collide_point_bounds p b = true ∧ collide_point_bounds p b2 = true := by
  rw [collide_bounds_bounds_iff]
  constructor
  · intro h
    refine ⟨fun i => max (b.min i) (b2.min i), ?_, ?_⟩
    · rw [collide_point_bounds_iff]
      intro i
      exact ⟨le_max_left _ _, max_le (hb i) (h i).1⟩
    · rw [collide_point_bounds_iff]
      intro i
      exact ⟨le_max_right _ _, max_le (h i).2 (hb2 i)⟩
  · rintro ⟨p, hp, hp2⟩ i
    have h1 := (collide_point_bounds_iff p b).mp hp i
    have h2 := (collide_point_bounds_iff p b2).mp hp2 i
    exact ⟨le_trans h2.1 h1.2, le_trans h1.1 h2.2⟩

/-- C20 at a concrete input: the boxes `[0,1] x [0,1]` and `[1,2] x [1,2]` touch at
the corner `(1,1)`. -/
theorem collide_bounds_bounds_iff_common_point_witness :
    collide_bounds_bounds (K := ℚ) ⟨![0, 0], ![1, 1]⟩ ⟨![1, 1], ![2, 2]⟩ = true ↔
      ∃ p : Vec 2 ℚ, collide_point_bounds p ⟨![0, 0], ![1, 1]⟩ = true
        ∧ collide_point_bounds p ⟨![1, 1], ![2, 2]⟩ = true :=
  collide_bounds_bounds_iff_common_point (K := ℚ) ⟨![0, 0], ![1, 1]⟩ ⟨![1, 1], ![2, 2]⟩
    (by
      intro i
      fin_cases i <;> simp)
    (by
      intro i
      fin_cases i <;> simp)

/-- Zero has no binary digit. -/
theorem bit_length_aux_zero (fuel : Nat) : bit_length_aux fuel 0 = 0 := by
  cases fuel <;> simp [bit_length_aux]

/-- With enough fuel, `a` lies below `2` to the power of its number of digits, and
at or above half of that when `a` is not zero. -/
theorem bit_length_aux_spec (fuel : Nat) : ∀ a : Nat, a ≤ fuel →
    a < 2 ^ bit_length_aux fuel a ∧ (a ≠ 0 → 2 ^ (bit_length_aux fuel a - 1) ≤ a) := by
  induction fuel with
  | zero =>
    intro a ha
    have h0 : a = 0 := Nat.le_zero.mp ha
    subst h0
    simp [bit_length_aux]
  | succ fuel ih =>
    intro a ha
    by_cases h0 : a = 0
    · subst h0
      simp [bit_length_aux]
    · have hhalf : a / 2 ≤ fuel := by omega
      obtain ⟨hlt, hge⟩ := ih (a / 2) hhalf
      have hstep : bit_length_aux (fuel + 1) a = 1 + bit_length_aux fuel (a / 2) := by
        simp [bit_length_aux, h0]
      rw [hstep]
      constructor
      · rw [pow_add, pow_one]
        omega
      · intro _
        rw [Nat.add_sub_cancel_left]
        by_cases h2 : a / 2 = 0
        · have h1 : a = 1 := by omega
          subst h1
          rw [show (1 : Nat) / 2 = 0 from rfl, bit_length_aux_zero]
          norm_num
        · have hk := hge h2
          have hpos : 1 ≤ bit_length_aux fuel (a / 2) := by
            by_contra hcon
            have hz : bit_length_aux fuel (a / 2) = 0 := by omega
            rw [hz] at hlt
            omega
          have hpow : 2 ^ bit_length_aux fuel (a / 2)
              = 2 * 2 ^ (bit_length_aux fuel (a / 2) - 1) := by
            rw [← pow_succ']
            congr 1
            omega
          rw [hpow]
          omega

/-- The number of binary digits: `2^(bit_length a - 1) <= a < 2^(bit_length a)`. -/
theorem bit_length_spec (a : Nat) :
    a < 2 ^ bit_length a ∧ (a ≠ 0 → 2 ^ (bit_length a - 1) ≤ a) :=
  bit_length_aux_spec a a (le_refl a)

/-- The rounding returns a nearest binary32 value: its magnitude is `n * 2^sh`
units of the argument with `n <= 2^24`, where `2^sh` is the spacing of binary32
values at the magnitude of the argument (never finer than `2^-149`), and it lies
within half that spacing of the argument. -/
theorem f32_round_spec (extra : Nat) (v : Int) :
    ∃ n : Nat, n ≤ 2 ^ 24
      ∧ (f32_round extra v).natAbs
          = n * 2 ^ (max (bit_length v.natAbs - 24) extra - extra)
      ∧ 2 * ((n : Int) * 2 ^ max (bit_length v.natAbs - 24) extra - (v.natAbs : Int)).natAbs
          ≤ 2 ^ max (bit_length v.natAbs - 24) extra := by
  have hbl := (bit_length_spec v.natAbs).1
  have hnat : (f32_round extra v).natAbs
      = (if max (bit_length v.natAbs - 24) extra = 0 then v.natAbs
          else if v.natAbs % 2 ^ max (bit_length v.natAbs - 24) extra
              > 2 ^ (max (bit_length v.natAbs - 24) extra - 1) then
            v.natAbs / 2 ^ max (bit_length v.natAbs - 24) extra + 1
          else if v.natAbs % 2 ^ max (bit_length v.natAbs - 24) extra
              < 2 ^ (max (bit_length v.natAbs - 24) extra - 1) then
            v.natAbs / 2 ^ max (bit_length v.natAbs - 24) extra
          else if v.natAbs / 2 ^ max (bit_length v.natAbs - 24) extra % 2 = 0 then
            v.natAbs / 2 ^ max (bit_length v.natAbs - 24) extra
          else v.natAbs / 2 ^ max (bit_length v.natAbs - 24) extra + 1)
        * 2 ^ (max (bit_length v.natAbs - 24) extra - extra) := by
    unfold f32_round
    by_cases hv : v < 0
    · simp only [if_pos hv, Int.natAbs_neg, Int.natAbs_ofNat]
    · simp only [if_neg hv, Int.natAbs_ofNat]
  rw [hnat]
  generalize v.natAbs = a at hbl ⊢
  generalize hsh : max (bit_length a - 24) extra = sh
  have hale : a < 2 ^ (sh + 24) := by
    have h1 : bit_length a ≤ sh + 24 := by
      have : bit_length a - 24 ≤ sh := by
        rw [← hsh]
        exact le_max_left _ _
      omega
    exact lt_of_lt_of_le hbl (Nat.pow_le_pow_right (by norm_num) h1)
  by_cases h0 : sh = 0
  · refine ⟨a, ?_, ?_, ?_⟩
    · rw [h0] at hale
      exact le_of_lt (by simpa using hale)
    · rw [if_pos h0]
    · rw [h0]
      simp
  · have hpos : 0 < 2 ^ sh := by positivity
    have hdm : 2 ^ sh * (a / 2 ^ sh) + a % 2 ^ sh = a := Nat.div_add_mod a (2 ^ sh)
    have hmod : a % 2 ^ sh < 2 ^ sh := Nat.mod_lt a hpos
    have hhalf : 2 * 2 ^ (sh - 1) = 2 ^ sh := by
      rw [← pow_succ']
      congr 1
      omega
    have hqt : a / 2 ^ sh < 2 ^ 24 := by
      rw [Nat.div_lt_iff_lt_mul hpos, ← pow_add, add_comm]
      exact hale
    have hdmZ : (a : Int) = 2 ^ sh * ((a / 2 ^ sh : Nat) : Int) + ((a % 2 ^ sh : Nat) : Int) := by
      exact_mod_cast hdm.symm
    have hup : 2 * (((a / 2 ^ sh + 1 : Nat) : Int) * 2 ^ sh - (a : Int)).natAbs
        = 2 * (2 ^ sh - a % 2 ^ sh) := by
      have h : ((a / 2 ^ sh + 1 : Nat) : Int) * 2 ^ sh - (a : Int)
          = ((2 ^ sh - a % 2 ^ sh : Nat) : Int) := by
        rw [Nat.cast_sub (le_of_lt hmod)]
        conv_lhs => rw [hdmZ]
        push_cast
        ring
      rw [h, Int.natAbs_ofNat]
    have hdown : 2 * (((a / 2 ^ sh : Nat) : Int) * 2 ^ sh - (a : Int)).natAbs
        = 2 * (a % 2 ^ sh) := by
      have h : ((a / 2 ^ sh : Nat) : Int) * 2 ^ sh - (a : Int)
          = -((a % 2 ^ sh : Nat) : Int) := by
        conv_lhs => rw [hdmZ]
        ring
      rw [h, Int.natAbs_neg, Int.natAbs_ofNat]
    by_cases h1 : a % 2 ^ sh > 2 ^ (sh - 1)
    · refine ⟨a / 2 ^ sh + 1, hqt, ?_, ?_⟩
      · rw [if_neg h0, if_pos h1]
      · rw [hup]
        omega
    · by_cases h2 : a % 2 ^ sh < 2 ^ (sh - 1)
      · refine ⟨a / 2 ^ sh, le_of_lt hqt, ?_, ?_⟩
        · rw [if_neg h0, if_neg h1, if_pos h2]
        · rw [hdown]
          omega
      · by_cases h3 : a / 2 ^ sh % 2 = 0
        · refine ⟨a / 2 ^ sh, le_of_lt hqt, ?_, ?_⟩
          · rw [if_neg h0, if_neg h1, if_neg h2, if_pos h3]
          · rw [hdown]
            omega
        · refine ⟨a / 2 ^ sh + 1, hqt, ?_, ?_⟩
          · rw [if_neg h0, if_neg h1, if_neg h2, if_neg h3]
          · rw [hup]
            omega

/-- The binary32 operations on small cases: `1.5 * 1.5 = 2.25` exactly;
`1 + 2^-24` is a tie and rounds to the even neighbour `1`; `1 + 3 * 2^-25` rounds
up to `1 + 2^-23`; `2^-80 * 2^-80` underflows to `0`; `3 * 2^-76 * 2^-75` rounds up
to the smallest subnormal `2^-149`. -/
theorem f32_arithmetic_examples :
    f32_mul (f32_of 3 1) (f32_of 3 1) = f32_of 9 2
      ∧ f32_add (f32_of 1 0) (f32_of 1 24) = f32_of 1 0
      ∧ f32_add (f32_of 1 0) (f32_of 3 25) = f32_of 8388609 23
      ∧ f32_mul (f32_of 1 80) (f32_of 1 80) = 0
      ∧ f32_mul (f32_of 3 76) (f32_of 1 75) = f32_of 1 149 := by
  decide!

/-- The binary32 code on two exactly tangent balls answers false. -/
theorem f32_collide_radial_radial_tangent :
    f32_collide_radial_radial ⟨![0, 0, 0], f32_of 119185 16⟩
      ⟨![f32_of 47674 16, f32_of 143022 16, f32_of 214533 16], f32_of 143022 16⟩
      = false := by
  decide!

/-- C12 (as stated, refuted): with `k = 23837/65536`, the balls with centres
`(0,0,0)` and `(2k, 6k, 9k)` and radii `5k` and `6k`, all binary32 values, are
exactly tangent (squared distance `121 k^2`, squared sum of radii `121 k^2`), and
`collide(r, r2)` for `vct = float` answers false: the rounded difference is
`2^-19`, about `1.9e-6`, not below `1e-6`. -/
theorem f32_tangent_balls_rejected :
    f32_collide_radial_radial ⟨![0, 0, 0], f32_of 119185 16⟩
        ⟨![f32_of 47674 16, f32_of 143022 16, f32_of 214533 16], f32_of 143022 16⟩
        = false
      ∧ glm_distance2 (K := ℚ) ![0, 0, 0]
          ![f32_val (f32_of 47674 16), f32_val (f32_of 143022 16),
            f32_val (f32_of 214533 16)]
        = (f32_val (f32_of 119185 16) + f32_val (f32_of 143022 16)) ^ 2
      ∧ f32_val (f32_of 119185 16) = 5 * (23837 / 65536)
      ∧ f32_val (f32_of 143022 16) = 6 * (23837 / 65536) := by
  refine ⟨f32_collide_radial_radial_tangent, ?_, ?_, ?_⟩
  · norm_num [glm_distance2, length2, dot, Fin.sum_univ_succ, f32_val, f32_of]
  · norm_num [f32_val, f32_of]
  · norm_num [f32_val, f32_of]

/-- The binary32 code on a ball exactly touching a corner of a box answers
false. -/
theorem f32_collide_bounds_radial_touching :
    f32_collide_bounds_radial ⟨![f32_of (-1) 0, f32_of (-1) 0, f32_of (-1) 0], ![0, 0, 0]⟩
      ⟨![f32_of 47674 16, f32_of 143022 16, f32_of 214533 16], f32_of 262207 16⟩
      = false := by
  decide!

/-- C13 (as stated, refuted): with `k = 23837/65536`, the box `[-1,0]^3` and the
ball with centre `(2k, 6k, 9k)` and radius `11k`, all binary32 values: the centre
is at squared distance `121 k^2 = (11k)^2` from the box (the ball touches the
corner `(0,0,0)`), and `collide(b, r)` for `vct = float` answers false. -/
theorem f32_touching_ball_rejected :
    f32_collide_bounds_radial
        ⟨![f32_of (-1) 0, f32_of (-1) 0, f32_of (-1) 0], ![0, 0, 0]⟩
        ⟨![f32_of 47674 16, f32_of 143022 16, f32_of 214533 16], f32_of 262207 16⟩
        = false
      ∧ distance2 (K := ℚ) ⟨![-1, -1, -1], ![0, 0, 0]⟩
          ![f32_val (f32_of 47674 16), f32_val (f32_of 143022 16),
            f32_val (f32_of 214533 16)]
        = (f32_val (f32_of 262207 16)) ^ 2
      ∧ f32_val (f32_of 262207 16) = 11 * (23837 / 65536)
      ∧ f32_val (f32_of (-1) 0) = -1 := by
  have h3 : List.finRange 3 = [0, 1, 2] := rfl
  refine ⟨f32_collide_bounds_radial_touching, ?_, ?_, ?_⟩
  · norm_num [distance2, distance2_step, h3, f32_val, f32_of]
  · norm_num [f32_val, f32_of]
  · norm_num [f32_val, f32_of]

/-- The binary32 `distance2` of a point just outside a box is `0`, and the
point-in-box test rejects the point. -/
theorem f32_distance2_underflow :
    f32_distance2 ⟨![0, 0], ![f32_of 1 0, f32_of 1 0]⟩ ![f32_of (-1) 80, f32_of 1 1] = 0
      ∧ f32_collide_point_bounds ![f32_of (-1) 80, f32_of 1 1]
          ⟨![0, 0], ![f32_of 1 0, f32_of 1 0]⟩ = false := by
  decide!

/-- C19 (as stated, refuted): for the box `[0,1]^2` and the point
`p = (-2^-80, 1/2)`, binary32 values, `distance2(b, p)` for `vct = float` is `0`
(the square `2^-160` underflows) while `collide(p, b)` is false; the true squared
distance is `2^-160`, not `0`. -/
theorem f32_distance2_zero_outside :
    f32_distance2 ⟨![0, 0], ![f32_of 1 0, f32_of 1 0]⟩ ![f32_of (-1) 80, f32_of 1 1] = 0
      ∧ f32_collide_point_bounds ![f32_of (-1) 80, f32_of 1 1]
          ⟨![0, 0], ![f32_of 1 0, f32_of 1 0]⟩ = false
      ∧ distance2 (K := ℚ) ⟨![0, 0], ![1, 1]⟩ ![f32_val (f32_of (-1) 80), f32_val (f32_of 1 1)]
          = 1 / 2 ^ 160
      ∧ f32_val (f32_of (-1) 80) = -(1 / 2 ^ 80)
      ∧ f32_val (f32_of 1 1) = 1 / 2
      ∧ f32_val (f32_of 1 0) = 1 := by
  have h2 : List.finRange 2 = [0, 1] := rfl
  refine ⟨f32_distance2_underflow.1, f32_distance2_underflow.2, ?_, ?_, ?_, ?_⟩
  · norm_num [distance2, distance2_step, h2, f32_val, f32_of]
  · norm_num [f32_val, f32_of]
  · norm_num [f32_val, f32_of]
  · norm_num [f32_val, f32_of]

end ntg
